import Mathlib

/-!
# Sphere / axis-aligned box collision test (Sphere_AABB_Collision_3D/main.cpp)

A shallow embedding of the geometric core of `main.cpp`:
`clamp_on_range`, `clamp_on_rectangle` and `is_colliding`, and of the two handlers that
change the globals, `update` and `key_callback`.

The arithmetic of the program is that of the C++ type `float`.  The file holds two
embeddings of it.

* The exact embedding (`clamp_on_range`, `clamp_on_rectangle`, `is_colliding`, `update`):
  a `float` is an exact rational number (`ℚ`); rounding, overflow, infinities and NaN are
  not modelled.  `glm::distance (p0, p1)` is `length (p1 - p0)` and `length v` is
  `sqrt (dot (v, v))`; the radicand is `distance2`, the comparison `sqrt q <= r` of
  `is_colliding` is decided exactly on rationals by `sqrt_le`, and `sqrt_le_iff_real` shows
  that this is the comparison of the real square root with `r`.  The statements proved on
  it are those on which rounding has no effect.
* The binary32 embedding (`F32.clamp_on_range`, `F32.clamp_on_rectangle`, `F32.distance`,
  `F32.is_colliding`, `F32.key_callback`): a `float` is a value of `F32`, and every
  operation of the code (`+`, `-`, `*`, `/ 2.0f`, `sqrt`) returns the correctly rounded
  result `round32` of IEEE 754 binary32, round to nearest, ties to even, with gradual
  underflow and overflow to the infinities; each operation is rounded on its own (no fused
  multiply-add, no wider intermediate precision).  The statements on which rounding has an
  effect are proved on it, and so are the float counterparts of the statements of the exact
  embedding.

Both embeddings are computable.  `glm::vec3` is the record `Vec3` (`FVec3` on floats); only
the fields of `Sphere` and `Cuboid` read by the geometric core (`origin`, `radius`,
`length`, `breadth`, `depth`) are kept, the rendering fields (`MVP`, `base`) are dropped.
The globals `blue`, `sphere` and `cuboid` are the record `State` (`FState` on floats).  The
cursor position read by `glfwGetCursorPos` is an argument of `update`; the constants
`GLFW_KEY_W`, `GLFW_KEY_S` and `GLFW_PRESS` are the record `KeyCodes`.  The `MVP` matrices
are not modelled.
-/

namespace SphereAABB

/-! ## Data model -/

/-- The three coordinates of a `glm::vec3`. -/
structure Vec3 where
  x : ℚ
  y : ℚ
  z : ℚ
  deriving DecidableEq

/-- The geometric fields of `struct Sphere`. -/
structure Sphere where
  origin : Vec3
  radius : ℚ
  deriving DecidableEq

/-- The geometric fields of `struct Cuboid`. -/
structure Cuboid where
  origin : Vec3
  length : ℚ
  breadth : ℚ
  depth : ℚ
  deriving DecidableEq

/-! ## The operations of the source -/

/-- Source: `clamp_on_range (x, min, max)`: two tests in this order, then `x`. -/
def clamp_on_range (x min max : ℚ) : ℚ :=
  if x < min then min
  else if x > max then max
  else x

/-- Source: `clamp_on_rectangle (p, r)`: x is clamped with the breadth, y with the
length, z with the depth. -/
def clamp_on_rectangle (p : Vec3) (r : Cuboid) : Vec3 :=
  { x := clamp_on_range p.x (r.origin.x - r.breadth / 2) (r.origin.x + r.breadth / 2)
    y := clamp_on_range p.y (r.origin.y - r.length / 2) (r.origin.y + r.length / 2)
    z := clamp_on_range p.z (r.origin.z - r.depth / 2) (r.origin.z + r.depth / 2) }

/-- Componentwise difference, `a - b` on `glm::vec3`. -/
def sub (a b : Vec3) : Vec3 :=
  { x := a.x - b.x, y := a.y - b.y, z := a.z - b.z }

/-- The scalar product `glm::dot`. -/
def dot (a b : Vec3) : ℚ :=
  a.x * b.x + a.y * b.y + a.z * b.z

/-- The radicand of `glm::distance (p0, p1) = sqrt (dot (p1 - p0, p1 - p0))`. -/
def distance2 (p0 p1 : Vec3) : ℚ :=
  dot (sub p1 p0) (sub p1 p0)

/-- Exact decision of `sqrt q <= r` on rationals: the root is non-negative, so `r` must
be, and then the comparison is the one of the squares. -/
def sqrt_le (q r : ℚ) : Bool :=
  decide (0 ≤ r ∧ q ≤ r * r)

/-- Source: `is_colliding (s, c)`: the closest point of the box to the sphere origin, the
distance between the two, and the test `distance <= s.radius`. -/
def is_colliding (s : Sphere) (c : Cuboid) : Bool :=
  let closest_point := clamp_on_rectangle s.origin c
  if sqrt_le (distance2 closest_point s.origin) s.radius then true else false

/-! ## Vocabulary of the specification -/

/-- The point `p` lies on or inside the cuboid: every coordinate is in the closed
interval `[origin - dimension / 2, origin + dimension / 2]` of its axis. -/
def inside (p : Vec3) (r : Cuboid) : Prop :=
  (r.origin.x - r.breadth / 2 ≤ p.x ∧ p.x ≤ r.origin.x + r.breadth / 2) ∧
  (r.origin.y - r.length / 2 ≤ p.y ∧ p.y ≤ r.origin.y + r.length / 2) ∧
  (r.origin.z - r.depth / 2 ≤ p.z ∧ p.z ≤ r.origin.z + r.depth / 2)

instance (p : Vec3) (r : Cuboid) : Decidable (inside p r) := by
  unfold inside; infer_instance

/-- Breadth, length and depth are all non-negative. -/
def nonneg_dims (r : Cuboid) : Prop :=
  0 ≤ r.breadth ∧ 0 ≤ r.length ∧ 0 ≤ r.depth

instance (r : Cuboid) : Decidable (nonneg_dims r) := by
  unfold nonneg_dims; infer_instance

/-- The cuboid of `setup ()`: centred at the origin, breadth 1.0, length 0.5, depth 0.5. -/
def setup_cuboid : Cuboid :=
  { origin := ⟨0, 0, 0⟩, length := 1 / 2, breadth := 1, depth := 1 / 2 }

/-- A cuboid whose breadth is negative: the type of the source admits it, no function
of the source rejects it. -/
def negative_breadth_cuboid : Cuboid :=
  { origin := ⟨0, 0, 0⟩, length := 1 / 2, breadth := -2, depth := 1 / 2 }

/-- A sphere that touches the box of `setup ()` on its face x = 0.5. -/
def touching_sphere : Sphere :=
  { origin := ⟨1, 0, 0⟩, radius := 1 / 2 }

/-- The sphere of scenario 1: centre (0, 0, 0), radius 0.1. -/
def inner_sphere : Sphere :=
  { origin := ⟨0, 0, 0⟩, radius := 1 / 10 }

/-- The sphere of scenario 2: centre (1, 0, 0), radius 0.49. -/
def near_sphere : Sphere :=
  { origin := ⟨1, 0, 0⟩, radius := 49 / 100 }

/-- The sphere of scenario 4: centre (0, 0, 10), radius 1.0. -/
def far_sphere : Sphere :=
  { origin := ⟨0, 0, 10⟩, radius := 1 }

/-- The largest of the three half dimensions of a cuboid. -/
def max_half (c : Cuboid) : ℚ :=
  max (max (c.breadth / 2) (c.length / 2)) (c.depth / 2)

/-- A planar cuboid: the box of `setup ()` with depth 0. -/
def planar_cuboid : Cuboid :=
  { origin := ⟨0, 0, 0⟩, length := 1 / 2, breadth := 1, depth := 0 }

/-- A sphere with a negative radius whose origin is the centre of the box of `setup ()`. -/
def negative_radius_sphere : Sphere :=
  { origin := ⟨0, 0, 0⟩, radius := -1 }

/-- Componentwise sum, `a + b` on `glm::vec3`. -/
def add (a b : Vec3) : Vec3 :=
  { x := a.x + b.x, y := a.y + b.y, z := a.z + b.z }

/-- The cuboid `c` with its origin moved by `t`, its dimensions kept. -/
def translate (c : Cuboid) (t : Vec3) : Cuboid :=
  { c with origin := add c.origin t }

/-- The sphere `s` with its origin moved by `t`, its radius kept. -/
def translate_sphere (s : Sphere) (t : Vec3) : Sphere :=
  { s with origin := add s.origin t }

/-! ## The program state -/

/-- The globals of `main.cpp` that `update` reads or writes: `blue`, `sphere` and `cuboid`
(geometric fields only). -/
structure State where
  blue : ℚ
  sphere : Sphere
  cuboid : Cuboid
  deriving DecidableEq

/-- Source: `update ()`.  First `blue` is set from `is_colliding (sphere, cuboid)`, then
the cursor position `(x, y)` read by `glfwGetCursorPos` (a parameter here) is written to
`sphere.origin.x` and `sphere.origin.y`.  The arithmetic on the cursor position is exact
here; the code computes it in `double` and narrows the result to `float`. -/
def update (st : State) (x y : ℚ) : State :=
  let blue : ℚ := if is_colliding st.sphere st.cuboid then 1 else 0
  { blue := blue
    sphere :=
      { origin :=
          { x := x / 800 * 2 - 1
            y := -(y / 800 * 2 - 1)
            z := st.sphere.origin.z }
        radius := st.sphere.radius }
    cuboid := st.cuboid }

/-- The three constants of the GLFW header that `key_callback` compares its arguments
with.  The header is not among the sources, so the constants are parameters. -/
structure KeyCodes where
  GLFW_KEY_W : Int
  GLFW_KEY_S : Int
  GLFW_PRESS : Int

/-- The values the three constants have in `glfw3.h`. -/
def glfw_codes : KeyCodes :=
  { GLFW_KEY_W := 87, GLFW_KEY_S := 83, GLFW_PRESS := 1 }

/-- The state after `setup ()`: sphere at the origin with radius 0.25, the box of
`setup ()`, `blue` 0. -/
def setup_state : State :=
  { blue := 0, sphere := { origin := ⟨0, 0, 0⟩, radius := 1 / 4 }, cuboid := setup_cuboid }

/-! ## Binary32 arithmetic -/

/-- A value of the C++ type `float` (IEEE 754 binary32): a finite value, one of the two
infinities, or NaN.  The sign of zero is not kept: no operation of the program (`+`, `-`,
`*`, `/ 2.0f`, `sqrt`, `<`, `>`, `<=`) gives a result that depends on it. -/
inductive F32 where
  | fin (q : ℚ)
  | pinf
  | ninf
  | nan
  deriving DecidableEq

namespace F32

/-- The nearest integer, ties to the even one. -/
def round_even (x : ℚ) : ℤ :=
  if x - ⌊x⌋ < 1 / 2 then ⌊x⌋
  else if 1 / 2 < x - ⌊x⌋ then ⌊x⌋ + 1
  else if ⌊x⌋ % 2 = 0 then ⌊x⌋
  else ⌊x⌋ + 1

/-- Binary logarithm of a natural number, rounded down, by repeated halving; the first
argument bounds the number of steps. -/
def nlog2 : ℕ → ℕ → ℕ
  | 0, _ => 0
  | fuel + 1, n => if n < 2 then 0 else nlog2 fuel (n / 2) + 1

/-- Binary logarithm of `|x|`, rounded down, for `x` other than 0: the difference of the
logarithms of numerator and denominator, or one less. -/
def ilog2 (x : ℚ) : ℤ :=
  if (2 : ℚ) ^ ((nlog2 x.num.natAbs x.num.natAbs : ℤ) - (nlog2 x.den x.den : ℤ)) ≤ |x| then
    (nlog2 x.num.natAbs x.num.natAbs : ℤ) - (nlog2 x.den x.den : ℤ)
  else (nlog2 x.num.natAbs x.num.natAbs : ℤ) - (nlog2 x.den x.den : ℤ) - 1

/-- Exponent of the unit in the last place of binary32 at `x`: 24 significant bits, and
never below the subnormal spacing 2^-149. -/
def ulp_exp (x : ℚ) : ℤ :=
  max (ilog2 x) (-126) - 23

/-- Round to nearest, ties to even, with 24 significant bits and no upper bound on the
exponent. -/
def round_fin (x : ℚ) : ℚ :=
  round_even (x / 2 ^ ulp_exp x) * 2 ^ ulp_exp x

/-- The binary32 value of the exact result `x` of an operation: round to nearest, ties to
even; a rounded magnitude of 2^128 or more overflows to an infinity. -/
def round32 (x : ℚ) : F32 :=
  if 2 ^ 128 ≤ round_fin x then pinf
  else if round_fin x ≤ -2 ^ 128 then ninf
  else fin (round_fin x)

/-- Digit-by-digit integer square root: the largest `m` with `m * m <= t` among
`n, ..., n + 2^i - 1`. -/
def isqrt : ℕ → ℕ → ℕ → ℕ
  | 0, _, n => n
  | i + 1, t, n =>
    if (n + 2 ^ i) * (n + 2 ^ i) ≤ t then isqrt i t (n + 2 ^ i) else isqrt i t n

/-- The correctly rounded square root of `q > 0`.  With `u` the exponent of the unit in
the last place of the root, `q / 4^u` lies in `[2^46, 2^48)` and the root is `n` or
`n + 1` units, where `n` is the integer square root; the choice compares `q / 4^u` with
`(n + 1/2)^2`. -/
def sqrt32 (q : ℚ) : F32 :=
  if (isqrt 24 ⌊q / 4 ^ (ilog2 q / 2 - 23)⌋₊ 0 + 1 / 2 : ℚ)
      * (isqrt 24 ⌊q / 4 ^ (ilog2 q / 2 - 23)⌋₊ 0 + 1 / 2) < q / 4 ^ (ilog2 q / 2 - 23) then
    round32 ((isqrt 24 ⌊q / 4 ^ (ilog2 q / 2 - 23)⌋₊ 0 + 1 : ℕ) * 2 ^ (ilog2 q / 2 - 23))
  else
    round32 ((isqrt 24 ⌊q / 4 ^ (ilog2 q / 2 - 23)⌋₊ 0 : ℕ) * 2 ^ (ilog2 q / 2 - 23))

/-- IEEE `<`: false when an operand is NaN. -/
def lt : F32 → F32 → Bool
  | fin x, fin y => decide (x < y)
  | nan, _ => false
  | _, nan => false
  | ninf, ninf => false
  | ninf, _ => true
  | _, ninf => false
  | pinf, _ => false
  | _, pinf => true

/-- IEEE `<=`: false when an operand is NaN. -/
def le : F32 → F32 → Bool
  | fin x, fin y => decide (x ≤ y)
  | nan, _ => false
  | _, nan => false
  | ninf, _ => true
  | _, ninf => false
  | _, pinf => true
  | pinf, _ => false

/-- IEEE `+` in binary32. -/
def add : F32 → F32 → F32
  | fin x, fin y => round32 (x + y)
  | nan, _ => nan
  | _, nan => nan
  | pinf, ninf => nan
  | ninf, pinf => nan
  | pinf, _ => pinf
  | _, pinf => pinf
  | ninf, _ => ninf
  | _, ninf => ninf

/-- IEEE `-` in binary32. -/
def sub : F32 → F32 → F32
  | fin x, fin y => round32 (x - y)
  | nan, _ => nan
  | _, nan => nan
  | pinf, pinf => nan
  | ninf, ninf => nan
  | pinf, _ => pinf
  | _, ninf => pinf
  | ninf, _ => ninf
  | _, pinf => ninf

/-- IEEE `*` in binary32. -/
def mul : F32 → F32 → F32
  | fin x, fin y => round32 (x * y)
  | nan, _ => nan
  | _, nan => nan
  | fin x, pinf => if x = 0 then nan else if 0 < x then pinf else ninf
  | fin x, ninf => if x = 0 then nan else if 0 < x then ninf else pinf
  | pinf, fin y => if y = 0 then nan else if 0 < y then pinf else ninf
  | ninf, fin y => if y = 0 then nan else if 0 < y then ninf else pinf
  | pinf, pinf => pinf
  | ninf, ninf => pinf
  | pinf, ninf => ninf
  | ninf, pinf => ninf

/-- The quotient `a / 2.0f` in binary32, the only division of the program. -/
def half : F32 → F32
  | fin x => round32 (x / 2)
  | pinf => pinf
  | ninf => ninf
  | nan => nan

/-- IEEE square root in binary32. -/
def sqrt : F32 → F32
  | fin x => if x < 0 then nan else if x = 0 then fin 0 else sqrt32 x
  | pinf => pinf
  | ninf => nan
  | nan => nan

end F32

/-- A `glm::vec3` of floats. -/
structure FVec3 where
  x : F32
  y : F32
  z : F32
  deriving DecidableEq

/-- The geometric fields of `struct Sphere`, as floats. -/
structure FSphere where
  origin : FVec3
  radius : F32
  deriving DecidableEq

/-- The geometric fields of `struct Cuboid`, as floats. -/
structure FCuboid where
  origin : FVec3
  length : F32
  breadth : F32
  depth : F32
  deriving DecidableEq

/-- The globals `blue`, `sphere` and `cuboid`, as floats. -/
structure FState where
  blue : F32
  sphere : FSphere
  cuboid : FCuboid
  deriving DecidableEq

/-- A point with finite coordinates as a vector of floats. -/
def Vec3.toF (v : Vec3) : FVec3 :=
  { x := F32.fin v.x, y := F32.fin v.y, z := F32.fin v.z }

/-- A sphere with finite fields as a sphere of floats. -/
def Sphere.toF (s : Sphere) : FSphere :=
  { origin := s.origin.toF, radius := F32.fin s.radius }

/-- A cuboid with finite fields as a cuboid of floats. -/
def Cuboid.toF (c : Cuboid) : FCuboid :=
  { origin := c.origin.toF, length := F32.fin c.length, breadth := F32.fin c.breadth,
    depth := F32.fin c.depth }

namespace F32

/-- Source: `clamp_on_range (x, min, max)` on floats: `x < min`, then `x > max`. -/
def clamp_on_range (x min max : F32) : F32 :=
  if lt x min then min
  else if lt max x then max
  else x

/-- Source: `clamp_on_rectangle (p, r)` on floats: each bound is the rounded difference
or sum of the origin coordinate and the rounded half dimension. -/
def clamp_on_rectangle (p : FVec3) (r : FCuboid) : FVec3 :=
  { x := clamp_on_range p.x (sub r.origin.x (half r.breadth)) (add r.origin.x (half r.breadth))
    y := clamp_on_range p.y (sub r.origin.y (half r.length)) (add r.origin.y (half r.length))
    z := clamp_on_range p.z (sub r.origin.z (half r.depth)) (add r.origin.z (half r.depth)) }

/-- The function `glm::distance (p0, p1) = sqrt (dot (p1 - p0, p1 - p0))` on floats: the three
differences, their squares, the two sums from left to right and the square root are each
rounded to binary32. -/
def distance (p0 p1 : FVec3) : F32 :=
  sqrt (add (add (mul (sub p1.x p0.x) (sub p1.x p0.x)) (mul (sub p1.y p0.y) (sub p1.y p0.y)))
    (mul (sub p1.z p0.z) (sub p1.z p0.z)))

/-- The float `glm::distance` of two points that differ in one coordinate only, `a` in one
and `b` in the other: the rounded root of the rounded square of the rounded difference. -/
def axis_distance (a b : F32) : F32 :=
  sqrt (mul (sub a b) (sub a b))

/-- Source: `is_colliding (s, c)` on floats. -/
def is_colliding (s : FSphere) (c : FCuboid) : Bool :=
  let closest_point := clamp_on_rectangle s.origin c
  if le (distance closest_point s.origin) s.radius then true else false

end F32

namespace F32

/-- The point `p` lies in the box whose bounds are the floats the code computes: on every
axis, the rounded `origin - dimension / 2` is `<=` the coordinate, which is `<=` the
rounded `origin + dimension / 2`. -/
def in_computed_box (p : FVec3) (r : FCuboid) : Prop :=
  (le (sub r.origin.x (half r.breadth)) p.x = true ∧
    le p.x (add r.origin.x (half r.breadth)) = true) ∧
  (le (sub r.origin.y (half r.length)) p.y = true ∧
    le p.y (add r.origin.y (half r.length)) = true) ∧
  (le (sub r.origin.z (half r.depth)) p.z = true ∧
    le p.z (add r.origin.z (half r.depth)) = true)

instance (p : FVec3) (r : FCuboid) : Decidable (in_computed_box p r) := by
  unfold in_computed_box; infer_instance

/-- The float state with `sphere.origin.z` replaced by `z`. -/
def set_z (st : FState) (z : F32) : FState :=
  { blue := st.blue
    sphere :=
      { origin := { x := st.sphere.origin.x, y := st.sphere.origin.y, z := z }
        radius := st.sphere.radius }
    cuboid := st.cuboid }

/-- Source: `key_callback (window, key, scancode, action, mods)` on floats: two
independent tests, in this order; `sphere.origin.z -= moverate` and
`sphere.origin.z += moverate` are a rounded subtraction and a rounded addition of
`moverate = 0.25f`.  The arguments `window`, `scancode` and `mods` are not read. -/
def key_callback (k : KeyCodes) (st : FState) (key action : Int) : FState :=
  let moverate : F32 := fin (1 / 4)
  let st1 : FState :=
    if key = k.GLFW_KEY_W ∧ action = k.GLFW_PRESS then
      set_z st (sub st.sphere.origin.z moverate)
    else st
  if key = k.GLFW_KEY_S ∧ action = k.GLFW_PRESS then
    set_z st1 (add st1.sphere.origin.z moverate)
  else st1

end F32

/-- The six bounds of the box are computed without rounding error: each float bound is the
exact `origin - dimension / 2` or `origin + dimension / 2`. -/
def exact_bounds (c : Cuboid) : Prop :=
  (F32.sub (F32.fin c.origin.x) (F32.half (F32.fin c.breadth))
      = F32.fin (c.origin.x - c.breadth / 2) ∧
    F32.add (F32.fin c.origin.x) (F32.half (F32.fin c.breadth))
      = F32.fin (c.origin.x + c.breadth / 2)) ∧
  (F32.sub (F32.fin c.origin.y) (F32.half (F32.fin c.length))
      = F32.fin (c.origin.y - c.length / 2) ∧
    F32.add (F32.fin c.origin.y) (F32.half (F32.fin c.length))
      = F32.fin (c.origin.y + c.length / 2)) ∧
  (F32.sub (F32.fin c.origin.z) (F32.half (F32.fin c.depth))
      = F32.fin (c.origin.z - c.depth / 2) ∧
    F32.add (F32.fin c.origin.z) (F32.half (F32.fin c.depth))
      = F32.fin (c.origin.z + c.depth / 2))

instance (c : Cuboid) : Decidable (exact_bounds c) := by
  unfold exact_bounds; infer_instance

/-- The three coordinates of `p` are floats: rounding to binary32 leaves each unchanged. -/
def float_point (p : Vec3) : Prop :=
  F32.round32 p.x = F32.fin p.x ∧ F32.round32 p.y = F32.fin p.y ∧
    F32.round32 p.z = F32.fin p.z

instance (p : Vec3) : Decidable (float_point p) := by
  unfold float_point; infer_instance

/-- The three half dimensions `breadth / 2.0f`, `length / 2.0f` and `depth / 2.0f` of the
cuboid are computed without rounding error (halving rounds only in the subnormal range). -/
def exact_halves (c : Cuboid) : Prop :=
  F32.half (F32.fin c.breadth) = F32.fin (c.breadth / 2) ∧
    F32.half (F32.fin c.length) = F32.fin (c.length / 2) ∧
    F32.half (F32.fin c.depth) = F32.fin (c.depth / 2)

instance (c : Cuboid) : Decidable (exact_halves c) := by
  unfold exact_halves; infer_instance

/-- The distance of the collision test is computed without rounding error: the float
`glm::distance` of the clamped point and the sphere origin is a finite `y >= 0` whose
square is the exact squared distance. -/
def exact_distance (s : Sphere) (c : Cuboid) : Prop :=
  ∃ y : ℚ, 0 ≤ y ∧ y * y = distance2 (clamp_on_rectangle s.origin c) s.origin ∧
    F32.distance (clamp_on_rectangle s.origin c).toF s.origin.toF = F32.fin y

/-! ## Inputs at which rounding shows -/

/-- A cuboid far from the origin: centre (2^24, 0, 0), breadth 3, length 1, depth 1.  The
exact upper bound 2^24 + 1.5 of the x axis is not a float. -/
def wide_cuboid : Cuboid :=
  { origin := ⟨16777216, 0, 0⟩, length := 1, breadth := 3, depth := 1 }

/-- A cuboid with centre (0.1f, 0, 0), breadth 0.6f, length 1, depth 1, where 0.1f and 0.6f
are the floats nearest to 0.1 and 0.6. -/
def tenth_cuboid : Cuboid :=
  { origin := ⟨13421773 / 134217728, 0, 0⟩, length := 1, breadth := 5033165 / 8388608,
    depth := 1 }

/-- The unit cube with centre (2^24, 0, 0). -/
def large_cuboid : Cuboid :=
  { origin := ⟨16777216, 0, 0⟩, length := 1, breadth := 1, depth := 1 }

/-- The unit cube with centre (0, 0, 0). -/
def unit_cube : Cuboid :=
  { origin := ⟨0, 0, 0⟩, length := 1, breadth := 1, depth := 1 }

/-- The cuboid of dimensions 0 at the origin. -/
def point_cuboid : Cuboid :=
  { origin := ⟨0, 0, 0⟩, length := 0, breadth := 0, depth := 0 }

/-- The box of `setup ()` moved to the centre (-1, 0, 0). -/
def left_cuboid : Cuboid :=
  { origin := ⟨-1, 0, 0⟩, length := 1 / 2, breadth := 1, depth := 1 / 2 }

/-- The box of `setup ()` with breadth 1 + 2^-23. -/
def odd_cuboid : Cuboid :=
  { origin := ⟨0, 0, 0⟩, length := 1 / 2, breadth := 1 + 1 / 2 ^ 23, depth := 1 / 2 }

/-- A sphere of radius 1 next to the edge (0.5, 0.25, 0) of the box of `setup ()`: centre
(1.5, 0.25 + 2^-13, 0). -/
def grazing_sphere : Sphere :=
  { origin := ⟨3 / 2, 1 / 4 + 1 / 2 ^ 13, 0⟩, radius := 1 }

/-- A sphere with centre (2^68, 0, 0) and radius 2^68. -/
def huge_sphere : Sphere :=
  { origin := ⟨2 ^ 68, 0, 0⟩, radius := 2 ^ 68 }

/-- A sphere with centre (2^-80, 0, 0) and radius 0. -/
def tiny_sphere : Sphere :=
  { origin := ⟨1 / 2 ^ 80, 0, 0⟩, radius := 0 }

/-- A sphere with centre (1.5, 1.5, 1.5) whose radius is the float nearest to the square
root of 3. -/
def corner_sphere : Sphere :=
  { origin := ⟨3 / 2, 3 / 2, 3 / 2⟩, radius := 14529495 / 8388608 }

/-- A sphere with centre (2 - 3 * 2^-23, 0, 0) and radius 2.5 - 2^-21. -/
def tie_sphere : Sphere :=
  { origin := ⟨2 - 3 / 2 ^ 23, 0, 0⟩, radius := 5 / 2 - 1 / 2 ^ 21 }

/-- The sphere of scenario 3 as the float code holds it: centre (1, 0, 0), radius 0.49f,
the float 2055209 / 2^22 nearest to 0.49. -/
def near_sphere32 : Sphere :=
  { origin := ⟨1, 0, 0⟩, radius := 2055209 / 4194304 }

/-- A sphere with centre (0.75, 0, 0) and radius 0.25 - 2^-24. -/
def quarter_sphere : Sphere :=
  { origin := ⟨3 / 4, 0, 0⟩, radius := 1 / 4 - 1 / 2 ^ 24 }

/-- The float state of `setup ()` with the sphere moved to `z`. -/
def state_at (z : ℚ) : FState :=
  { blue := F32.fin 0
    sphere := { origin := ⟨F32.fin 0, F32.fin 0, F32.fin z⟩, radius := F32.fin (1 / 4) }
    cuboid := setup_cuboid.toF }

/-! ## One axis -/

theorem clamp_on_range_ge (x lo hi : ℚ) (h : lo ≤ hi) : lo ≤ clamp_on_range x lo hi := by
  unfold clamp_on_range
  split_ifs with h1 h2
  · exact le_refl lo
  · exact h
  · exact not_lt.mp h1

theorem clamp_on_range_le (x lo hi : ℚ) (h : lo ≤ hi) : clamp_on_range x lo hi ≤ hi := by
  unfold clamp_on_range
  split_ifs with h1 h2
  · exact h
  · exact le_refl hi
  · exact not_lt.mp h2

theorem clamp_on_range_id (x lo hi : ℚ) (h1 : lo ≤ x) (h2 : x ≤ hi) :
    clamp_on_range x lo hi = x := by
  unfold clamp_on_range
  rw [if_neg (not_lt.mpr h1), if_neg (not_lt.mpr h2)]

theorem half_le (o d : ℚ) (h : 0 ≤ d) : o - d / 2 ≤ o + d / 2 := by
  linarith

/-! ## The box -/

theorem inside_clamp_on_rectangle (p : Vec3) (r : Cuboid) (h : nonneg_dims r) :
    inside (clamp_on_rectangle p r) r := by
  obtain ⟨hb, hl, hd⟩ := h
  have hx := half_le r.origin.x r.breadth hb
  have hy := half_le r.origin.y r.length hl
  have hz := half_le r.origin.z r.depth hd
  exact ⟨⟨clamp_on_range_ge _ _ _ hx, clamp_on_range_le _ _ _ hx⟩,
    ⟨clamp_on_range_ge _ _ _ hy, clamp_on_range_le _ _ _ hy⟩,
    ⟨clamp_on_range_ge _ _ _ hz, clamp_on_range_le _ _ _ hz⟩⟩

theorem clamp_on_rectangle_eq_self (p : Vec3) (r : Cuboid) (h : inside p r) :
    clamp_on_rectangle p r = p := by
  obtain ⟨⟨hx1, hx2⟩, ⟨hy1, hy2⟩, ⟨hz1, hz2⟩⟩ := h
  unfold clamp_on_rectangle
  rw [clamp_on_range_id _ _ _ hx1 hx2, clamp_on_range_id _ _ _ hy1 hy2,
    clamp_on_range_id _ _ _ hz1 hz2]

/-! ## C2: containment -/

/-- C2 (containment): for every cuboid and every point `p` on or inside it (each
coordinate in the closed interval of its axis, faces, edges and corners included),
`clamp_on_rectangle p r = p` exactly. -/
theorem clamp_on_rectangle_inside (p : Vec3) (r : Cuboid) (h : inside p r) :
    clamp_on_rectangle p r = p :=
  clamp_on_rectangle_eq_self p r h

theorem clamp_on_rectangle_inside_witness :
    inside ⟨1 / 2, -1 / 4, 1 / 4⟩ setup_cuboid ∧
    clamp_on_rectangle ⟨1 / 2, -1 / 4, 1 / 4⟩ setup_cuboid = ⟨1 / 2, -1 / 4, 1 / 4⟩ :=
  ⟨by norm_num [inside, setup_cuboid],
    clamp_on_rectangle_inside ⟨1 / 2, -1 / 4, 1 / 4⟩ setup_cuboid
      (by norm_num [inside, setup_cuboid])⟩

/-! ## The distance test over the reals -/

theorem sqrt_le_iff_real (q r : ℚ) :
    sqrt_le q r = true ↔ Real.sqrt (q : ℝ) ≤ (r : ℝ) := by
  unfold sqrt_le
  rw [decide_eq_true_iff, Real.sqrt_le_iff, sq]
  constructor
  · rintro ⟨h1, h2⟩
    refine ⟨by exact_mod_cast h1, ?_⟩
    have h3 : ((q : ℚ) : ℝ) ≤ ((r * r : ℚ) : ℝ) := by exact_mod_cast h2
    simpa using h3
  · rintro ⟨h1, h2⟩
    refine ⟨by exact_mod_cast h1, ?_⟩
    have h3 : ((q : ℚ) : ℝ) ≤ ((r * r : ℚ) : ℝ) := by simpa using h2
    exact_mod_cast h3

theorem is_colliding_iff_sqrt_le (s : Sphere) (c : Cuboid) :
    is_colliding s c = true ↔
      sqrt_le (distance2 (clamp_on_rectangle s.origin c) s.origin) s.radius = true := by
  unfold is_colliding
  simp

theorem is_colliding_iff_real (s : Sphere) (c : Cuboid) :
    is_colliding s c = true ↔
      Real.sqrt ((distance2 (clamp_on_rectangle s.origin c) s.origin : ℚ) : ℝ)
        ≤ (s.radius : ℝ) := by
  rw [is_colliding_iff_sqrt_le, sqrt_le_iff_real]

theorem distance2_eq (p0 p1 : Vec3) :
    distance2 p0 p1 = (p1.x - p0.x) * (p1.x - p0.x) + (p1.y - p0.y) * (p1.y - p0.y)
      + (p1.z - p0.z) * (p1.z - p0.z) := rfl

theorem distance2_comm (p0 p1 : Vec3) : distance2 p0 p1 = distance2 p1 p0 := by
  rw [distance2_eq, distance2_eq]
  ring

theorem distance2_nonneg (p0 p1 : Vec3) : 0 ≤ distance2 p0 p1 := by
  rw [distance2_eq]
  nlinarith [mul_self_nonneg (p1.x - p0.x), mul_self_nonneg (p1.y - p0.y),
    mul_self_nonneg (p1.z - p0.z)]

/-- On one axis the clamped value is at least as near to `x` as any real `t` of the
interval. -/
theorem clamp_on_range_nearest (x lo hi : ℚ) (t : ℝ) (h1 : (lo : ℝ) ≤ t)
    (h2 : t ≤ (hi : ℝ)) :
    ((x : ℝ) - (clamp_on_range x lo hi : ℚ)) * ((x : ℝ) - (clamp_on_range x lo hi : ℚ))
      ≤ ((x : ℝ) - t) * ((x : ℝ) - t) := by
  unfold clamp_on_range
  split_ifs with h3 h4
  · have h5 : (x : ℝ) < (lo : ℝ) := by exact_mod_cast h3
    nlinarith
  · have h5 : (hi : ℝ) < (x : ℝ) := by exact_mod_cast h4
    nlinarith
  · rw [sub_self, mul_zero]
    exact mul_self_nonneg _

/-- The squared distance from `p` to its clamped point is at most the squared distance
from `p` to any real point of the box. -/
theorem clamp_on_rectangle_nearest_real (p : Vec3) (r : Cuboid) (x y z : ℝ)
    (hx : ((r.origin.x - r.breadth / 2 : ℚ) : ℝ) ≤ x ∧ x ≤ ((r.origin.x + r.breadth / 2 : ℚ) : ℝ))
    (hy : ((r.origin.y - r.length / 2 : ℚ) : ℝ) ≤ y ∧ y ≤ ((r.origin.y + r.length / 2 : ℚ) : ℝ))
    (hz : ((r.origin.z - r.depth / 2 : ℚ) : ℝ) ≤ z ∧ z ≤ ((r.origin.z + r.depth / 2 : ℚ) : ℝ)) :
    ((distance2 (clamp_on_rectangle p r) p : ℚ) : ℝ)
      ≤ ((p.x : ℝ) - x) * ((p.x : ℝ) - x) + ((p.y : ℝ) - y) * ((p.y : ℝ) - y)
        + ((p.z : ℝ) - z) * ((p.z : ℝ) - z) := by
  have ax := clamp_on_range_nearest p.x _ _ x hx.1 hx.2
  have ay := clamp_on_range_nearest p.y _ _ y hy.1 hy.2
  have az := clamp_on_range_nearest p.z _ _ z hz.1 hz.2
  rw [distance2_eq]
  unfold clamp_on_rectangle
  push_cast at ax ay az ⊢
  linarith

theorem clamp_on_rectangle_nearest_sq (p q : Vec3) (r : Cuboid) (h : inside q r) :
    distance2 (clamp_on_rectangle p r) p ≤ distance2 q p := by
  obtain ⟨⟨hx1, hx2⟩, ⟨hy1, hy2⟩, ⟨hz1, hz2⟩⟩ := h
  have key := clamp_on_rectangle_nearest_real p r (q.x : ℝ) (q.y : ℝ) (q.z : ℝ)
    ⟨by exact_mod_cast hx1, by exact_mod_cast hx2⟩
    ⟨by exact_mod_cast hy1, by exact_mod_cast hy2⟩
    ⟨by exact_mod_cast hz1, by exact_mod_cast hz2⟩
  have h2 : ((distance2 (clamp_on_rectangle p r) p : ℚ) : ℝ) ≤ ((distance2 q p : ℚ) : ℝ) := by
    rw [distance2_eq q p]
    push_cast
    exact key
  exact_mod_cast h2

/-! ## Ball and box, in exact arithmetic -/

/-- In exact arithmetic the test is the intersection of the closed ball and the closed box:
with non-negative dimensions, `is_colliding s c` is true if and only if some point `q` on
or inside the cuboid is at Euclidean distance at most `s.radius` from `s.origin`.  The
second part says the same of points with real coordinates. -/
theorem exact_is_colliding_iff_intersect (s : Sphere) (c : Cuboid) (_hr : 0 ≤ s.radius)
    (h : nonneg_dims c) :
    (is_colliding s c = true ↔
      ∃ q : Vec3, inside q c ∧
        Real.sqrt ((distance2 q s.origin : ℚ) : ℝ) ≤ (s.radius : ℝ)) ∧
    (is_colliding s c = true ↔
      ∃ x y z : ℝ,
        (((c.origin.x - c.breadth / 2 : ℚ) : ℝ) ≤ x ∧
          x ≤ ((c.origin.x + c.breadth / 2 : ℚ) : ℝ)) ∧
        (((c.origin.y - c.length / 2 : ℚ) : ℝ) ≤ y ∧
          y ≤ ((c.origin.y + c.length / 2 : ℚ) : ℝ)) ∧
        (((c.origin.z - c.depth / 2 : ℚ) : ℝ) ≤ z ∧
          z ≤ ((c.origin.z + c.depth / 2 : ℚ) : ℝ)) ∧
        Real.sqrt ((x - s.origin.x) ^ 2 + (y - s.origin.y) ^ 2 + (z - s.origin.z) ^ 2)
          ≤ (s.radius : ℝ)) := by
  have hin := inside_clamp_on_rectangle s.origin c h
  constructor
  · rw [is_colliding_iff_real]
    constructor
    · intro hc
      exact ⟨clamp_on_rectangle s.origin c, hin, hc⟩
    · rintro ⟨q, hq, hd⟩
      refine le_trans (Real.sqrt_le_sqrt ?_) hd
      exact_mod_cast clamp_on_rectangle_nearest_sq s.origin q c hq
  · rw [is_colliding_iff_real]
    constructor
    · intro hc
      obtain ⟨⟨hx1, hx2⟩, ⟨hy1, hy2⟩, ⟨hz1, hz2⟩⟩ := hin
      refine ⟨((clamp_on_rectangle s.origin c).x : ℝ), ((clamp_on_rectangle s.origin c).y : ℝ),
        ((clamp_on_rectangle s.origin c).z : ℝ),
        ⟨by exact_mod_cast hx1, by exact_mod_cast hx2⟩,
        ⟨by exact_mod_cast hy1, by exact_mod_cast hy2⟩,
        ⟨by exact_mod_cast hz1, by exact_mod_cast hz2⟩, ?_⟩
      refine le_trans (le_of_eq ?_) hc
      congr 1
      rw [distance2_eq]
      push_cast
      ring
    · rintro ⟨x, y, z, hx, hy, hz, hd⟩
      refine le_trans (Real.sqrt_le_sqrt ?_) hd
      have key := clamp_on_rectangle_nearest_real s.origin c x y z hx hy hz
      calc ((distance2 (clamp_on_rectangle s.origin c) s.origin : ℚ) : ℝ)
          ≤ ((s.origin.x : ℝ) - x) * ((s.origin.x : ℝ) - x)
            + ((s.origin.y : ℝ) - y) * ((s.origin.y : ℝ) - y)
            + ((s.origin.z : ℝ) - z) * ((s.origin.z : ℝ) - z) := key
        _ = (x - s.origin.x) ^ 2 + (y - s.origin.y) ^ 2 + (z - s.origin.z) ^ 2 := by ring

/-! ## A sphere far from the centre of the box, in exact arithmetic -/

theorem sum_mul_self_nonneg (a1 a2 a3 : ℝ) : 0 ≤ a1 * a1 + a2 * a2 + a3 * a3 :=
  add_nonneg (add_nonneg (mul_self_nonneg a1) (mul_self_nonneg a2)) (mul_self_nonneg a3)

/-- Cauchy-Schwarz in three dimensions, in the form used for the triangle inequality. -/
theorem dot_le_sqrt_mul_sqrt (a1 a2 a3 b1 b2 b3 : ℝ) :
    a1 * b1 + a2 * b2 + a3 * b3
      ≤ Real.sqrt (a1 * a1 + a2 * a2 + a3 * a3) * Real.sqrt (b1 * b1 + b2 * b2 + b3 * b3) := by
  rw [← Real.sqrt_mul (sum_mul_self_nonneg a1 a2 a3)]
  refine le_trans (le_abs_self _) (Real.abs_le_sqrt ?_)
  nlinarith [sq_nonneg (a1 * b2 - a2 * b1), sq_nonneg (a1 * b3 - a3 * b1),
    sq_nonneg (a2 * b3 - a3 * b2)]

/-- The triangle inequality of the Euclidean norm in three dimensions. -/
theorem sqrt_add_le (a1 a2 a3 b1 b2 b3 : ℝ) :
    Real.sqrt ((a1 + b1) * (a1 + b1) + (a2 + b2) * (a2 + b2) + (a3 + b3) * (a3 + b3))
      ≤ Real.sqrt (a1 * a1 + a2 * a2 + a3 * a3)
        + Real.sqrt (b1 * b1 + b2 * b2 + b3 * b3) := by
  have hA := sum_mul_self_nonneg a1 a2 a3
  have hB := sum_mul_self_nonneg b1 b2 b3
  have sA := Real.mul_self_sqrt hA
  have sB := Real.mul_self_sqrt hB
  have cs := dot_le_sqrt_mul_sqrt a1 a2 a3 b1 b2 b3
  rw [Real.sqrt_le_left (add_nonneg (Real.sqrt_nonneg _) (Real.sqrt_nonneg _))]
  nlinarith

theorem sq_le_max_half (v lo hi o d m : ℚ) (hlo : lo = o - d / 2) (hhi : hi = o + d / 2)
    (h1 : lo ≤ v) (h2 : v ≤ hi) (hm : d / 2 ≤ m) :
    (v - o) * (v - o) ≤ m * m := by
  subst hlo hhi
  have h3 : -m ≤ v - o := by linarith
  have h4 : v - o ≤ m := by linarith
  nlinarith

/-- A point of the box is at distance at most `max_half c * sqrt 3` from its centre. -/
theorem distance2_inside_le (q : Vec3) (c : Cuboid) (h : inside q c) :
    distance2 c.origin q ≤ 3 * (max_half c * max_half c) := by
  obtain ⟨⟨hx1, hx2⟩, ⟨hy1, hy2⟩, ⟨hz1, hz2⟩⟩ := h
  have mb : c.breadth / 2 ≤ max_half c :=
    le_trans (le_max_left _ _) (le_max_left _ _)
  have ml : c.length / 2 ≤ max_half c :=
    le_trans (le_max_right _ _) (le_max_left _ _)
  have md : c.depth / 2 ≤ max_half c := le_max_right _ _
  have ex := sq_le_max_half q.x _ _ c.origin.x c.breadth _ rfl rfl hx1 hx2 mb
  have ey := sq_le_max_half q.y _ _ c.origin.y c.length _ rfl rfl hy1 hy2 ml
  have ez := sq_le_max_half q.z _ _ c.origin.z c.depth _ rfl rfl hz1 hz2 md
  rw [distance2_eq]
  linarith

theorem max_half_nonneg (c : Cuboid) (h : nonneg_dims c) : 0 ≤ max_half c :=
  le_trans (div_nonneg h.2.2 (by norm_num)) (le_max_right _ _)

/-- The distance from the sphere origin to the centre of the box is at most the distance
to the clamped point plus `max_half c * sqrt 3`. -/
theorem distance_origin_le (s : Sphere) (c : Cuboid) (h : nonneg_dims c) :
    Real.sqrt ((distance2 s.origin c.origin : ℚ) : ℝ)
      ≤ Real.sqrt ((distance2 (clamp_on_rectangle s.origin c) s.origin : ℚ) : ℝ)
        + ((max_half c : ℚ) : ℝ) * Real.sqrt 3 := by
  have hin := inside_clamp_on_rectangle s.origin c h
  have hb := distance2_inside_le _ c hin
  have hm := max_half_nonneg c h
  have hmr : (0 : ℝ) ≤ ((max_half c : ℚ) : ℝ) := by exact_mod_cast hm
  have hbr : ((distance2 c.origin (clamp_on_rectangle s.origin c) : ℚ) : ℝ)
      ≤ 3 * (((max_half c : ℚ) : ℝ) * ((max_half c : ℚ) : ℝ)) := by exact_mod_cast hb
  have hB : Real.sqrt ((distance2 c.origin (clamp_on_rectangle s.origin c) : ℚ) : ℝ)
      ≤ ((max_half c : ℚ) : ℝ) * Real.sqrt 3 := by
    refine le_trans (Real.sqrt_le_sqrt hbr) (le_of_eq ?_)
    rw [Real.sqrt_mul (by norm_num), Real.sqrt_mul_self hmr, mul_comm]
  have tri := sqrt_add_le
    (((clamp_on_rectangle s.origin c).x : ℝ) - s.origin.x)
    (((clamp_on_rectangle s.origin c).y : ℝ) - s.origin.y)
    (((clamp_on_rectangle s.origin c).z : ℝ) - s.origin.z)
    ((c.origin.x : ℝ) - (clamp_on_rectangle s.origin c).x)
    ((c.origin.y : ℝ) - (clamp_on_rectangle s.origin c).y)
    ((c.origin.z : ℝ) - (clamp_on_rectangle s.origin c).z)
  have e1 : ((distance2 s.origin c.origin : ℚ) : ℝ)
      = (((clamp_on_rectangle s.origin c).x : ℝ) - s.origin.x
          + ((c.origin.x : ℝ) - (clamp_on_rectangle s.origin c).x))
        * (((clamp_on_rectangle s.origin c).x : ℝ) - s.origin.x
          + ((c.origin.x : ℝ) - (clamp_on_rectangle s.origin c).x))
        + (((clamp_on_rectangle s.origin c).y : ℝ) - s.origin.y
          + ((c.origin.y : ℝ) - (clamp_on_rectangle s.origin c).y))
        * (((clamp_on_rectangle s.origin c).y : ℝ) - s.origin.y
          + ((c.origin.y : ℝ) - (clamp_on_rectangle s.origin c).y))
        + (((clamp_on_rectangle s.origin c).z : ℝ) - s.origin.z
          + ((c.origin.z : ℝ) - (clamp_on_rectangle s.origin c).z))
        * (((clamp_on_rectangle s.origin c).z : ℝ) - s.origin.z
          + ((c.origin.z : ℝ) - (clamp_on_rectangle s.origin c).z)) := by
    rw [distance2_eq]
    push_cast
    ring
  have e2 : ((distance2 (clamp_on_rectangle s.origin c) s.origin : ℚ) : ℝ)
      = (((clamp_on_rectangle s.origin c).x : ℝ) - s.origin.x)
        * (((clamp_on_rectangle s.origin c).x : ℝ) - s.origin.x)
        + (((clamp_on_rectangle s.origin c).y : ℝ) - s.origin.y)
        * (((clamp_on_rectangle s.origin c).y : ℝ) - s.origin.y)
        + (((clamp_on_rectangle s.origin c).z : ℝ) - s.origin.z)
        * (((clamp_on_rectangle s.origin c).z : ℝ) - s.origin.z) := by
    rw [distance2_eq]
    push_cast
    ring
  have e3 : ((distance2 c.origin (clamp_on_rectangle s.origin c) : ℚ) : ℝ)
      = ((c.origin.x : ℝ) - (clamp_on_rectangle s.origin c).x)
        * ((c.origin.x : ℝ) - (clamp_on_rectangle s.origin c).x)
        + ((c.origin.y : ℝ) - (clamp_on_rectangle s.origin c).y)
        * ((c.origin.y : ℝ) - (clamp_on_rectangle s.origin c).y)
        + ((c.origin.z : ℝ) - (clamp_on_rectangle s.origin c).z)
        * ((c.origin.z : ℝ) - (clamp_on_rectangle s.origin c).z) := by
    rw [distance2_eq]
    push_cast
    ring
  rw [← e1, ← e2, ← e3] at tri
  linarith

/-- In exact arithmetic a sphere far from the centre of the box misses it: with
non-negative dimensions, if the Euclidean distance from `s.origin` to `c.origin` is
strictly greater than `s.radius + max (breadth / 2, length / 2, depth / 2) * sqrt 3`,
then `is_colliding s c` is false. -/
theorem exact_is_colliding_false_of_far (s : Sphere) (c : Cuboid) (_hr : 0 ≤ s.radius)
    (h : nonneg_dims c)
    (hfar : (s.radius : ℝ)
        + ((max (max (c.breadth / 2) (c.length / 2)) (c.depth / 2) : ℚ) : ℝ) * Real.sqrt 3
      < Real.sqrt ((distance2 s.origin c.origin : ℚ) : ℝ)) :
    is_colliding s c = false := by
  rw [← Bool.not_eq_true, is_colliding_iff_real]
  intro hc
  have tri := distance_origin_le s c h
  unfold max_half at tri
  linarith

/-! ## C7: idempotence -/

/-- C7, as stated, fails: on a cuboid of breadth -2 centred at the origin the lower bound
of the x axis is 1 and the upper bound is -1, so the point (0, 0, 0) is clamped to
(1, 0, 0), and clamping that again gives (-1, 0, 0). -/
theorem clamp_on_rectangle_not_idempotent :
    clamp_on_rectangle ⟨0, 0, 0⟩ negative_breadth_cuboid = ⟨1, 0, 0⟩ ∧
    clamp_on_rectangle (clamp_on_rectangle ⟨0, 0, 0⟩ negative_breadth_cuboid)
      negative_breadth_cuboid = ⟨-1, 0, 0⟩ ∧
    clamp_on_rectangle (clamp_on_rectangle ⟨0, 0, 0⟩ negative_breadth_cuboid)
      negative_breadth_cuboid ≠ clamp_on_rectangle ⟨0, 0, 0⟩ negative_breadth_cuboid := by
  have h1 : clamp_on_rectangle ⟨0, 0, 0⟩ negative_breadth_cuboid = ⟨1, 0, 0⟩ := by
    norm_num [clamp_on_rectangle, clamp_on_range, negative_breadth_cuboid]
  have h2 : clamp_on_rectangle ⟨1, 0, 0⟩ negative_breadth_cuboid = ⟨-1, 0, 0⟩ := by
    norm_num [clamp_on_rectangle, clamp_on_range, negative_breadth_cuboid]
  refine ⟨h1, ?_, ?_⟩
  · rw [h1, h2]
  · rw [h1, h2]
    intro h
    have hx := congrArg Vec3.x h
    norm_num at hx

/-- C7 (idempotence), amended: for every point `p` and every cuboid with non-negative
breadth, length and depth, clamping the clamped point again changes nothing. -/
theorem clamp_on_rectangle_idempotent (p : Vec3) (r : Cuboid) (h : nonneg_dims r) :
    clamp_on_rectangle (clamp_on_rectangle p r) r = clamp_on_rectangle p r :=
  clamp_on_rectangle_eq_self _ r (inside_clamp_on_rectangle p r h)

theorem clamp_on_rectangle_idempotent_witness :
    nonneg_dims setup_cuboid ∧
    clamp_on_rectangle (clamp_on_rectangle ⟨1, 0, 10⟩ setup_cuboid) setup_cuboid
      = clamp_on_rectangle ⟨1, 0, 10⟩ setup_cuboid :=
  ⟨by norm_num [nonneg_dims, setup_cuboid],
    clamp_on_rectangle_idempotent ⟨1, 0, 10⟩ setup_cuboid
      (by norm_num [nonneg_dims, setup_cuboid])⟩

/-! ## C9: a sphere whose centre is in the box collides -/

theorem distance2_self (p : Vec3) : distance2 p p = 0 := by
  rw [distance2_eq]
  ring

/-- C9: for every cuboid and every sphere with radius >= 0 whose origin lies on or inside
the cuboid, `is_colliding s c` is true. -/
theorem is_colliding_of_inside (s : Sphere) (c : Cuboid) (hr : 0 ≤ s.radius)
    (h : inside s.origin c) : is_colliding s c = true := by
  rw [is_colliding_iff_sqrt_le, clamp_on_rectangle_eq_self _ _ h, distance2_self]
  unfold sqrt_le
  rw [decide_eq_true_iff]
  exact ⟨hr, mul_nonneg hr hr⟩

theorem is_colliding_of_inside_witness :
    0 ≤ inner_sphere.radius ∧ inside inner_sphere.origin setup_cuboid ∧
    is_colliding inner_sphere setup_cuboid = true :=
  ⟨by norm_num [inner_sphere], by norm_num [inside, inner_sphere, setup_cuboid],
    is_colliding_of_inside inner_sphere setup_cuboid (by norm_num [inner_sphere])
      (by norm_num [inside, inner_sphere, setup_cuboid])⟩

/-! ## C11: a degenerate box -/

theorem clamp_on_range_degenerate (x o : ℚ) : clamp_on_range x (o - 0 / 2) (o + 0 / 2) = o := by
  unfold clamp_on_range
  split_ifs with h1 h2
  · norm_num
  · norm_num
  · norm_num at h1 h2
    exact le_antisymm h2 h1

/-- C11 (degenerate box): for every cuboid in which one dimension is 0 and every point
`p`, `clamp_on_rectangle p r` has, on the degenerate axis, the coordinate of the cuboid
origin, and the other two coordinates are clamped as usual.  The function is total: its
only divisions are by the constant 2.  The three parts are the three axes. -/
theorem clamp_on_rectangle_degenerate (p : Vec3) (r : Cuboid) :
    (r.breadth = 0 →
      (clamp_on_rectangle p r).x = r.origin.x ∧
      (clamp_on_rectangle p r).y
        = clamp_on_range p.y (r.origin.y - r.length / 2) (r.origin.y + r.length / 2) ∧
      (clamp_on_rectangle p r).z
        = clamp_on_range p.z (r.origin.z - r.depth / 2) (r.origin.z + r.depth / 2)) ∧
    (r.length = 0 →
      (clamp_on_rectangle p r).y = r.origin.y ∧
      (clamp_on_rectangle p r).x
        = clamp_on_range p.x (r.origin.x - r.breadth / 2) (r.origin.x + r.breadth / 2) ∧
      (clamp_on_rectangle p r).z
        = clamp_on_range p.z (r.origin.z - r.depth / 2) (r.origin.z + r.depth / 2)) ∧
    (r.depth = 0 →
      (clamp_on_rectangle p r).z = r.origin.z ∧
      (clamp_on_rectangle p r).x
        = clamp_on_range p.x (r.origin.x - r.breadth / 2) (r.origin.x + r.breadth / 2) ∧
      (clamp_on_rectangle p r).y
        = clamp_on_range p.y (r.origin.y - r.length / 2) (r.origin.y + r.length / 2)) := by
  refine ⟨fun h => ⟨?_, rfl, rfl⟩, fun h => ⟨?_, rfl, rfl⟩, fun h => ⟨?_, rfl, rfl⟩⟩
  · show clamp_on_range p.x (r.origin.x - r.breadth / 2) (r.origin.x + r.breadth / 2)
      = r.origin.x
    rw [h]
    exact clamp_on_range_degenerate _ _
  · show clamp_on_range p.y (r.origin.y - r.length / 2) (r.origin.y + r.length / 2)
      = r.origin.y
    rw [h]
    exact clamp_on_range_degenerate _ _
  · show clamp_on_range p.z (r.origin.z - r.depth / 2) (r.origin.z + r.depth / 2)
      = r.origin.z
    rw [h]
    exact clamp_on_range_degenerate _ _

theorem clamp_on_rectangle_degenerate_witness :
    planar_cuboid.depth = 0 ∧
    clamp_on_rectangle ⟨2, 0, 3⟩ planar_cuboid = ⟨1 / 2, 0, 0⟩ ∧
    (clamp_on_rectangle ⟨2, 0, 3⟩ planar_cuboid).z = planar_cuboid.origin.z :=
  ⟨rfl, by norm_num [clamp_on_rectangle, clamp_on_range, planar_cuboid],
    ((clamp_on_rectangle_degenerate ⟨2, 0, 3⟩ planar_cuboid).2.2 rfl).1⟩

/-! ## C14: a negative radius -/

/-- C14: for every cuboid and every sphere whose radius is strictly negative,
`is_colliding s c` is false, also when the origin of the sphere is inside the cuboid; the
function returns this Boolean and signals nothing. -/
theorem is_colliding_negative_radius (s : Sphere) (c : Cuboid) (h : s.radius < 0) :
    is_colliding s c = false := by
  rw [← Bool.not_eq_true, is_colliding_iff_sqrt_le]
  unfold sqrt_le
  rw [decide_eq_true_iff]
  rintro ⟨h1, _⟩
  exact absurd h (not_lt.mpr h1)

theorem is_colliding_negative_radius_witness :
    negative_radius_sphere.radius < 0 ∧
    inside negative_radius_sphere.origin setup_cuboid ∧
    is_colliding negative_radius_sphere setup_cuboid = false :=
  ⟨by norm_num [negative_radius_sphere],
    by norm_num [inside, negative_radius_sphere, setup_cuboid],
    is_colliding_negative_radius negative_radius_sphere setup_cuboid
      (by norm_num [negative_radius_sphere])⟩

/-! ## Translation, in exact arithmetic -/

theorem clamp_on_range_translate (x o d t : ℚ) :
    clamp_on_range (x + t) (o + t - d / 2) (o + t + d / 2)
      = clamp_on_range x (o - d / 2) (o + d / 2) + t := by
  unfold clamp_on_range
  split_ifs <;> linarith

theorem clamp_on_rectangle_translate (p t : Vec3) (c : Cuboid) :
    clamp_on_rectangle (add p t) (translate c t) = add (clamp_on_rectangle p c) t := by
  unfold clamp_on_rectangle translate add
  simp only [clamp_on_range_translate]

theorem distance2_translate (a b t : Vec3) :
    distance2 (add a t) (add b t) = distance2 a b := by
  rw [distance2_eq, distance2_eq]
  unfold add
  ring

/-- In exact arithmetic the closest point and the test are invariant under translation:
moving the query point and the cuboid origin by `t` moves the closest point by `t`, and
moving the sphere origin and the cuboid origin by `t` leaves `is_colliding` unchanged. -/
theorem exact_translation_invariance (t p : Vec3) (s : Sphere) (c : Cuboid) :
    clamp_on_rectangle (add p t) (translate c t) = add (clamp_on_rectangle p c) t ∧
    is_colliding (translate_sphere s t) (translate c t) = is_colliding s c := by
  refine ⟨clamp_on_rectangle_translate p t c, ?_⟩
  unfold is_colliding translate_sphere
  simp only [clamp_on_rectangle_translate, distance2_translate]

/-! ## C12: the colour follows the collision test -/

/-- The colour is the one of the state on entry: from the state of `setup ()` (sphere at
the centre of the box) a cursor at pixel (800, 400) moves the sphere to (1, 0, 0), where
it does not collide, and `blue` is 1 all the same. -/
theorem update_blue_of_entry_state :
    (update setup_state 800 400).blue = 1 ∧
    (update setup_state 800 400).sphere.origin = ⟨1, 0, 0⟩ ∧
    is_colliding (update setup_state 800 400).sphere (update setup_state 800 400).cuboid
      = false := by
  have h1 : is_colliding setup_state.sphere setup_state.cuboid = true := by
    simp only [is_colliding, sqrt_le, distance2_eq, clamp_on_rectangle, clamp_on_range,
      setup_cuboid, setup_state]
    norm_num
  have h2 : (update setup_state 800 400).sphere = ⟨⟨1, 0, 0⟩, 1 / 4⟩ := by
    simp only [update, setup_state]
    norm_num
  have h3 : (update setup_state 800 400).cuboid = setup_cuboid := rfl
  refine ⟨?_, ?_, ?_⟩
  · simp only [update, h1]
    rfl
  · rw [h2]
  · rw [h2, h3]
    simp only [is_colliding, sqrt_le, distance2_eq, clamp_on_rectangle, clamp_on_range,
      setup_cuboid]
    norm_num

namespace F32

theorem round_even_ge (x : ℚ) : x - 1 / 2 ≤ round_even x := by
  have h1 := Int.floor_le x
  have h2 := Int.lt_floor_add_one x
  unfold round_even
  split_ifs with a b c
  · linarith
  · push_cast; linarith
  · linarith
  · push_cast; linarith

theorem round_even_le (x : ℚ) : (round_even x : ℚ) ≤ x + 1 / 2 := by
  have h1 := Int.floor_le x
  have h2 := Int.lt_floor_add_one x
  unfold round_even
  split_ifs with a b c
  · linarith
  · push_cast; linarith
  · linarith
  · push_cast; linarith

theorem round_even_mono (x y : ℚ) (h : x ≤ y) : round_even x ≤ round_even y := by
  by_contra hc
  rw [not_le] at hc
  have h1 : (round_even y : ℚ) + 1 ≤ round_even x := by exact_mod_cast hc
  have h2 := round_even_ge y
  have h3 := round_even_le x
  have h4 : x = y := by linarith
  rw [h4] at hc
  exact lt_irrefl _ hc

theorem round_even_intCast (n : ℤ) : round_even (n : ℚ) = n := by
  unfold round_even
  rw [Int.floor_intCast, sub_self, if_pos (by norm_num)]

theorem round_even_le_intCast (x : ℚ) (n : ℤ) (h : x ≤ n) : round_even x ≤ n := by
  have := round_even_mono x n h
  rwa [round_even_intCast] at this

theorem intCast_le_round_even (x : ℚ) (n : ℤ) (h : (n : ℚ) ≤ x) : n ≤ round_even x := by
  have := round_even_mono n x h
  rwa [round_even_intCast] at this

theorem nlog2_spec (f : ℕ) : ∀ n : ℕ, 1 ≤ n → n ≤ f →
    2 ^ nlog2 f n ≤ n ∧ n < 2 ^ (nlog2 f n + 1) := by
  induction f with
  | zero => intro n h1 h2; omega
  | succ f ih =>
    intro n h1 h2
    unfold nlog2
    split_ifs with h
    · constructor
      · simpa using h1
      · simpa using h
    · have h3 : 1 ≤ n / 2 := by omega
      have h4 : n / 2 ≤ f := by omega
      obtain ⟨a, b⟩ := ih (n / 2) h3 h4
      rw [pow_succ] at b ⊢
      rw [pow_succ]
      constructor
      · omega
      · omega

theorem ilog2_spec (x : ℚ) (hx : x ≠ 0) :
    (2 : ℚ) ^ ilog2 x ≤ |x| ∧ |x| < (2 : ℚ) ^ (ilog2 x + 1) := by
  have ha : 1 ≤ x.num.natAbs := Nat.one_le_iff_ne_zero.mpr (by simpa using hx)
  have hb : 1 ≤ x.den := x.den_pos
  obtain ⟨a1, a2⟩ := nlog2_spec x.num.natAbs x.num.natAbs ha le_rfl
  obtain ⟨b1, b2⟩ := nlog2_spec x.den x.den hb le_rfl
  have hq : |x| = (x.num.natAbs : ℚ) / (x.den : ℚ) := by
    conv_lhs => rw [← Rat.num_div_den x]
    rw [abs_div, Nat.abs_cast, Nat.cast_natAbs, Int.cast_abs]
  have a1q : (2 : ℚ) ^ nlog2 x.num.natAbs x.num.natAbs ≤ (x.num.natAbs : ℚ) := by
    exact_mod_cast a1
  have a2q : (x.num.natAbs : ℚ) < (2 : ℚ) ^ (nlog2 x.num.natAbs x.num.natAbs + 1) := by
    exact_mod_cast a2
  have b1q : (2 : ℚ) ^ nlog2 x.den x.den ≤ (x.den : ℚ) := by exact_mod_cast b1
  have b2q : (x.den : ℚ) < (2 : ℚ) ^ (nlog2 x.den x.den + 1) := by exact_mod_cast b2
  have hden : (0 : ℚ) < x.den := by exact_mod_cast x.den_pos
  have two : (0 : ℚ) < 2 := by norm_num
  have p1 : (0 : ℚ) < (2 : ℚ) ^ nlog2 x.den x.den := pow_pos two _
  have p2 : (0 : ℚ) < (2 : ℚ) ^ nlog2 x.num.natAbs x.num.natAbs := pow_pos two _
  have e1 : (2 : ℚ) ^ ((nlog2 x.num.natAbs x.num.natAbs : ℤ) - (nlog2 x.den x.den : ℤ))
      = (2 : ℚ) ^ nlog2 x.num.natAbs x.num.natAbs / (2 : ℚ) ^ nlog2 x.den x.den := by
    rw [zpow_sub₀ (by norm_num), zpow_natCast, zpow_natCast]
  unfold ilog2
  split_ifs with h
  · refine ⟨h, ?_⟩
    rw [zpow_add_one₀ (by norm_num), e1, hq, div_mul_eq_mul_div, div_lt_div_iff₀ hden p1]
    rw [pow_succ] at a2q
    have k1 : (x.num.natAbs : ℚ) * 2 ^ nlog2 x.den x.den
        < 2 ^ nlog2 x.num.natAbs x.num.natAbs * 2 * 2 ^ nlog2 x.den x.den :=
      mul_lt_mul_of_pos_right a2q p1
    have k2 : (2 : ℚ) ^ nlog2 x.num.natAbs x.num.natAbs * 2 * 2 ^ nlog2 x.den x.den
        ≤ 2 ^ nlog2 x.num.natAbs x.num.natAbs * 2 * x.den :=
      mul_le_mul_of_nonneg_left b1q (by positivity)
    linarith
  · rw [not_le] at h
    rw [sub_add_cancel]
    refine ⟨?_, h⟩
    rw [zpow_sub_one₀ (by norm_num), e1, hq, div_mul_eq_mul_div, div_le_div_iff₀ p1 hden]
    rw [pow_succ] at b2q
    have k1 : (2 : ℚ) ^ nlog2 x.num.natAbs x.num.natAbs * 2⁻¹ * x.den
        ≤ 2 ^ nlog2 x.num.natAbs x.num.natAbs * 2⁻¹ * (2 ^ nlog2 x.den x.den * 2) :=
      mul_le_mul_of_nonneg_left (le_of_lt b2q) (by positivity)
    have k2 : (2 : ℚ) ^ nlog2 x.num.natAbs x.num.natAbs * 2 ^ nlog2 x.den x.den
        ≤ x.num.natAbs * 2 ^ nlog2 x.den x.den :=
      mul_le_mul_of_nonneg_right a1q (le_of_lt p1)
    have k3 : (2 : ℚ) ^ nlog2 x.num.natAbs x.num.natAbs * 2⁻¹ * (2 ^ nlog2 x.den x.den * 2)
        = 2 ^ nlog2 x.num.natAbs x.num.natAbs * 2 ^ nlog2 x.den x.den := by ring
    linarith

end F32

/-! ## Rounding is monotone -/

namespace F32

theorem ulp_pos (x : ℚ) : (0 : ℚ) < (2 : ℚ) ^ ulp_exp x :=
  zpow_pos (by norm_num) _

theorem round_fin_le_of_le_mul (x : ℚ) (n : ℤ) (h : x ≤ n * (2 : ℚ) ^ ulp_exp x) :
    round_fin x ≤ n * (2 : ℚ) ^ ulp_exp x := by
  unfold round_fin
  have h1 : x / (2 : ℚ) ^ ulp_exp x ≤ n := by
    rw [div_le_iff₀ (ulp_pos x)]
    exact h
  have h2 : ((round_even (x / (2 : ℚ) ^ ulp_exp x) : ℤ) : ℚ) ≤ (n : ℚ) := by
    exact_mod_cast round_even_le_intCast _ n h1
  exact mul_le_mul_of_nonneg_right h2 (le_of_lt (ulp_pos x))

theorem mul_le_round_fin_of_le (x : ℚ) (n : ℤ) (h : n * (2 : ℚ) ^ ulp_exp x ≤ x) :
    n * (2 : ℚ) ^ ulp_exp x ≤ round_fin x := by
  unfold round_fin
  have h1 : (n : ℚ) ≤ x / (2 : ℚ) ^ ulp_exp x := by
    rw [le_div_iff₀ (ulp_pos x)]
    exact h
  have h2 : (n : ℚ) ≤ ((round_even (x / (2 : ℚ) ^ ulp_exp x) : ℤ) : ℚ) := by
    exact_mod_cast intCast_le_round_even _ n h1
  exact mul_le_mul_of_nonneg_right h2 (le_of_lt (ulp_pos x))

theorem zpow_eq_intCast_mul (L e : ℤ) (h : e ≤ L) :
    ∃ n : ℤ, (2 : ℚ) ^ L = n * (2 : ℚ) ^ e := by
  refine ⟨2 ^ (L - e).toNat, ?_⟩
  have h1 : ((L - e).toNat : ℤ) = L - e := Int.toNat_of_nonneg (by omega)
  have h2 : (((2 : ℤ) ^ (L - e).toNat : ℤ) : ℚ) = (2 : ℚ) ^ (L - e) := by
    rw [← h1]
    push_cast
    rw [zpow_natCast, h1]
  rw [h2, ← zpow_add₀ (by norm_num)]
  congr 1
  ring

theorem round_fin_zero : round_fin 0 = 0 := by
  unfold round_fin
  rw [zero_div]
  have : round_even 0 = 0 := by simpa using round_even_intCast 0
  rw [this]
  simp

theorem round_fin_nonneg (x : ℚ) (h : 0 ≤ x) : 0 ≤ round_fin x := by
  have := mul_le_round_fin_of_le x 0 (by simpa using h)
  simpa using this

theorem round_fin_nonpos (x : ℚ) (h : x ≤ 0) : round_fin x ≤ 0 := by
  have := round_fin_le_of_le_mul x 0 (by simpa using h)
  simpa using this

theorem round_fin_le_zpow (x : ℚ) (L : ℤ) (h : x ≤ (2 : ℚ) ^ L) (hL : ulp_exp x ≤ L) :
    round_fin x ≤ (2 : ℚ) ^ L := by
  obtain ⟨n, hn⟩ := zpow_eq_intCast_mul L (ulp_exp x) hL
  rw [hn] at h ⊢
  exact round_fin_le_of_le_mul x n h

theorem zpow_le_round_fin (x : ℚ) (L : ℤ) (h : (2 : ℚ) ^ L ≤ x) (hL : ulp_exp x ≤ L) :
    (2 : ℚ) ^ L ≤ round_fin x := by
  obtain ⟨n, hn⟩ := zpow_eq_intCast_mul L (ulp_exp x) hL
  rw [hn] at h ⊢
  exact mul_le_round_fin_of_le x n h

theorem round_fin_le_neg_zpow (x : ℚ) (L : ℤ) (h : x ≤ -(2 : ℚ) ^ L)
    (hL : ulp_exp x ≤ L) : round_fin x ≤ -(2 : ℚ) ^ L := by
  obtain ⟨n, hn⟩ := zpow_eq_intCast_mul L (ulp_exp x) hL
  have e : -(2 : ℚ) ^ L = ((-n : ℤ) : ℚ) * (2 : ℚ) ^ ulp_exp x := by
    rw [hn]; push_cast; ring
  rw [e] at h ⊢
  exact round_fin_le_of_le_mul x (-n) h

theorem neg_zpow_le_round_fin (x : ℚ) (L : ℤ) (h : -(2 : ℚ) ^ L ≤ x)
    (hL : ulp_exp x ≤ L) : -(2 : ℚ) ^ L ≤ round_fin x := by
  obtain ⟨n, hn⟩ := zpow_eq_intCast_mul L (ulp_exp x) hL
  have e : -(2 : ℚ) ^ L = ((-n : ℤ) : ℚ) * (2 : ℚ) ^ ulp_exp x := by
    rw [hn]; push_cast; ring
  rw [e] at h ⊢
  exact mul_le_round_fin_of_le x (-n) h

/-- When the unit in the last place of `y` is larger than that of `x`, a power of two
lies between `|x|` and `|y|`, and it is a multiple of both units. -/
theorem exists_zpow_between (x y : ℚ) (hx : x ≠ 0) (hy : y ≠ 0)
    (h : ulp_exp x < ulp_exp y) :
    ∃ L : ℤ, |x| < (2 : ℚ) ^ L ∧ (2 : ℚ) ^ L ≤ |y| ∧ ulp_exp x ≤ L ∧ ulp_exp y ≤ L := by
  obtain ⟨-, x2⟩ := ilog2_spec x hx
  obtain ⟨y1, -⟩ := ilog2_spec y hy
  refine ⟨ilog2 y, ?_, y1, ?_, ?_⟩
  · refine lt_of_lt_of_le x2 (zpow_le_zpow_right₀ (by norm_num) ?_)
    unfold ulp_exp at h
    rcases le_total (ilog2 x) (-126) with a | a <;> rcases le_total (ilog2 y) (-126) with b | b
    · rw [max_eq_right a, max_eq_right b] at h; omega
    · rw [max_eq_right a, max_eq_left b] at h; omega
    · rw [max_eq_left a, max_eq_right b] at h; omega
    · rw [max_eq_left a, max_eq_left b] at h; omega
  · unfold ulp_exp at h ⊢
    rcases le_total (ilog2 x) (-126) with a | a <;> rcases le_total (ilog2 y) (-126) with b | b
    · rw [max_eq_right a, max_eq_right b] at h; omega
    · rw [max_eq_right a, max_eq_left b] at h; rw [max_eq_right a]; omega
    · rw [max_eq_left a, max_eq_right b] at h; omega
    · rw [max_eq_left a, max_eq_left b] at h; rw [max_eq_left a]; omega
  · unfold ulp_exp at h ⊢
    rcases le_total (ilog2 x) (-126) with a | a <;> rcases le_total (ilog2 y) (-126) with b | b
    · rw [max_eq_right a, max_eq_right b] at h; omega
    · rw [max_eq_left b]; omega
    · rw [max_eq_left a, max_eq_right b] at h; omega
    · rw [max_eq_left b]; omega

theorem round_fin_mono (x y : ℚ) (h : x ≤ y) : round_fin x ≤ round_fin y := by
  by_cases hx : x = 0
  · subst hx
    rw [round_fin_zero]
    exact round_fin_nonneg y h
  by_cases hy : y = 0
  · subst hy
    rw [round_fin_zero]
    exact round_fin_nonpos x h
  rcases lt_trichotomy (ulp_exp x) (ulp_exp y) with hlt | heq | hgt
  · obtain ⟨L, a, b, c, d⟩ := exists_zpow_between x y hx hy hlt
    have ypos : 0 < y := by
      by_contra hn
      rw [not_lt] at hn
      rw [abs_of_nonpos hn, abs_of_nonpos (le_trans h hn)] at *
      linarith
    rw [abs_of_pos ypos] at b
    have xle : x ≤ (2 : ℚ) ^ L := le_trans (le_abs_self x) (le_of_lt a)
    exact le_trans (round_fin_le_zpow x L xle c) (zpow_le_round_fin y L b d)
  · unfold round_fin
    rw [heq]
    have h1 : x / (2 : ℚ) ^ ulp_exp y ≤ y / (2 : ℚ) ^ ulp_exp y :=
      div_le_div_of_nonneg_right h (le_of_lt (ulp_pos y))
    have h2 : ((round_even (x / (2 : ℚ) ^ ulp_exp y) : ℤ) : ℚ)
        ≤ ((round_even (y / (2 : ℚ) ^ ulp_exp y) : ℤ) : ℚ) := by
      exact_mod_cast round_even_mono _ _ h1
    exact mul_le_mul_of_nonneg_right h2 (le_of_lt (ulp_pos y))
  · obtain ⟨L, a, b, c, d⟩ := exists_zpow_between y x hy hx hgt
    have xneg : x < 0 := by
      by_contra hn
      rw [not_lt] at hn
      rw [abs_of_nonneg hn, abs_of_nonneg (le_trans hn h)] at *
      linarith
    rw [abs_of_neg xneg] at b
    have yge : -(2 : ℚ) ^ L ≤ y := by
      have := neg_abs_le y
      linarith
    exact le_trans (round_fin_le_neg_zpow x L (by linarith) d) (neg_zpow_le_round_fin y L yge c)

theorem round32_ne_nan (x : ℚ) : round32 x ≠ nan := by
  unfold round32
  split_ifs <;> simp

theorem round32_mono (x y : ℚ) (h : x ≤ y) : le (round32 x) (round32 y) = true := by
  have m := round_fin_mono x y h
  unfold round32
  split_ifs <;> simp only [le, decide_eq_true_eq] <;> linarith

end F32

/-! ## Rounding leaves a float unchanged -/

namespace F32

theorem ilog2_lt_of_abs_lt (r : ℚ) (hr : r ≠ 0) (k : ℤ) (h : |r| < (2 : ℚ) ^ k) :
    ilog2 r < k := by
  obtain ⟨a, -⟩ := ilog2_spec r hr
  exact (zpow_lt_zpow_iff_right₀ (by norm_num : (1 : ℚ) < 2)).mp (lt_of_le_of_lt a h)

theorem le_ilog2_of_le_abs (r : ℚ) (hr : r ≠ 0) (k : ℤ) (h : (2 : ℚ) ^ k ≤ |r|) :
    k ≤ ilog2 r := by
  obtain ⟨-, b⟩ := ilog2_spec r hr
  have := (zpow_lt_zpow_iff_right₀ (by norm_num : (1 : ℚ) < 2)).mp (lt_of_le_of_lt h b)
  omega

theorem round_fin_of_intCast_mul (r : ℚ) (n : ℤ) (h : r = n * (2 : ℚ) ^ ulp_exp r) :
    round_fin r = r := by
  unfold round_fin
  have h1 : r / (2 : ℚ) ^ ulp_exp r = n := by
    rw [div_eq_iff (ne_of_gt (ulp_pos r))]
    exact h
  rw [h1, round_even_intCast]
  exact h.symm

theorem abs_round_fin_le (x : ℚ) (hx : x ≠ 0) :
    |round_fin x| ≤ (2 : ℚ) ^ (ulp_exp x + 24) := by
  obtain ⟨-, b⟩ := ilog2_spec x hx
  have hL : ilog2 x + 1 ≤ ulp_exp x + 24 := by
    unfold ulp_exp
    rcases le_total (ilog2 x) (-126) with a | a
    · rw [max_eq_right a]; omega
    · rw [max_eq_left a]; omega
  have h1 : |x| ≤ (2 : ℚ) ^ (ulp_exp x + 24) :=
    le_trans (le_of_lt b) (zpow_le_zpow_right₀ (by norm_num) hL)
  have hu : ulp_exp x ≤ ulp_exp x + 24 := by omega
  rw [abs_le]
  constructor
  · exact neg_zpow_le_round_fin x _ (by have := neg_abs_le x; linarith) hu
  · exact round_fin_le_zpow x _ (le_trans (le_abs_self x) h1) hu

theorem round_fin_idem (x : ℚ) : round_fin (round_fin x) = round_fin x := by
  by_cases hx : x = 0
  · subst hx
    rw [round_fin_zero, round_fin_zero]
  by_cases hr : round_fin x = 0
  · rw [hr, round_fin_zero]
  have hb := abs_round_fin_le x hx
  have he : -149 ≤ ulp_exp x := by
    unfold ulp_exp
    have := le_max_right (ilog2 x) (-126)
    omega
  rcases lt_or_eq_of_le hb with hlt | heq
  · -- the rounded value stays below the next power of two: its unit is not larger
    have h1 : ilog2 (round_fin x) < ulp_exp x + 24 := ilog2_lt_of_abs_lt _ hr _ hlt
    have h2 : ulp_exp (round_fin x) ≤ ulp_exp x := by
      show max (ilog2 (round_fin x)) (-126) - 23 ≤ ulp_exp x
      rcases le_total (ilog2 (round_fin x)) (-126) with a | a
      · rw [max_eq_right a]; omega
      · rw [max_eq_left a]; omega
    obtain ⟨m, hm⟩ := zpow_eq_intCast_mul (ulp_exp x) (ulp_exp (round_fin x)) h2
    refine round_fin_of_intCast_mul _ (round_even (x / (2 : ℚ) ^ ulp_exp x) * m) ?_
    conv_lhs => unfold round_fin
    rw [hm]
    push_cast
    ring
  · -- the rounded value is a power of two
    have h1 : ilog2 (round_fin x) = ulp_exp x + 24 := by
      apply le_antisymm
      · have : |round_fin x| < (2 : ℚ) ^ (ulp_exp x + 24 + 1) := by
          rw [heq]
          exact zpow_lt_zpow_right₀ (by norm_num) (by omega)
        have := ilog2_lt_of_abs_lt _ hr _ this
        omega
      · exact le_ilog2_of_le_abs _ hr _ (le_of_eq heq.symm)
    have h2 : ulp_exp (round_fin x) = ulp_exp x + 1 := by
      show max (ilog2 (round_fin x)) (-126) - 23 = ulp_exp x + 1
      rw [h1, max_eq_left (by omega)]
      omega
    have h3 : (2 : ℚ) ^ (ulp_exp x + 24) = ((2 ^ 23 : ℤ) : ℚ) * (2 : ℚ) ^ (ulp_exp x + 1) := by
      rw [show ulp_exp x + 24 = 23 + (ulp_exp x + 1) by ring, zpow_add₀ (by norm_num)]
      norm_num
    rcases abs_eq (le_of_lt (zpow_pos (by norm_num : (0 : ℚ) < 2) (ulp_exp x + 24))) |>.mp heq
      with hp | hn
    · refine round_fin_of_intCast_mul _ (2 ^ 23) ?_
      rw [h2, hp, h3]
    · refine round_fin_of_intCast_mul _ (-(2 ^ 23)) ?_
      rw [h2, hn, h3]
      push_cast
      ring

theorem round32_idem (x v : ℚ) (h : round32 x = fin v) : round32 v = fin v := by
  unfold round32 at h
  split_ifs at h with h1 h2
  injection h with h3
  have h4 : round_fin v = v := by rw [← h3, round_fin_idem]
  unfold round32
  rw [h4, if_neg (by rw [← h3]; exact h1), if_neg (by rw [← h3]; exact h2)]

end F32

/-! ## The rounding is to nearest -/

namespace F32

/-- The rounded value is a nearest multiple of the unit in the last place: the error is at
most half a unit. -/
theorem abs_sub_round_fin_le (x : ℚ) :
    |x - round_fin x| ≤ (2 : ℚ) ^ ulp_exp x / 2 := by
  have hp := ulp_pos x
  have h1 := round_even_ge (x / (2 : ℚ) ^ ulp_exp x)
  have h2 := round_even_le (x / (2 : ℚ) ^ ulp_exp x)
  have e : x = x / (2 : ℚ) ^ ulp_exp x * (2 : ℚ) ^ ulp_exp x := by
    rw [div_mul_cancel₀ _ (ne_of_gt hp)]
  unfold round_fin
  rw [abs_le]
  constructor
  · have k := mul_le_mul_of_nonneg_right h2 (le_of_lt hp)
    rw [add_mul, ← e] at k
    linarith
  · have k := mul_le_mul_of_nonneg_right h1 (le_of_lt hp)
    rw [sub_mul, ← e] at k
    linarith

/-- The unit in the last place of a normal number: 24 significant bits. -/
theorem ulp_exp_of_normal (x : ℚ) (h : (2 : ℚ) ^ (-126 : ℤ) ≤ |x|) :
    (2 : ℚ) ^ (ulp_exp x + 23) ≤ |x| ∧ |x| < (2 : ℚ) ^ (ulp_exp x + 24) := by
  have hx : x ≠ 0 := by
    intro h0
    rw [h0, abs_zero] at h
    exact absurd h (not_le.mpr (zpow_pos (by norm_num) _))
  obtain ⟨a, b⟩ := ilog2_spec x hx
  have hl := le_ilog2_of_le_abs x hx _ h
  have e : ulp_exp x = ilog2 x - 23 := by
    unfold ulp_exp
    rw [max_eq_left hl]
  rw [e]
  constructor
  · rw [sub_add_cancel]; exact a
  · rw [show ilog2 x - 23 + 24 = ilog2 x + 1 by ring]; exact b

/-- The unit in the last place of a subnormal number is 2^-149. -/
theorem ulp_exp_of_subnormal (x : ℚ) (hx : x ≠ 0) (h : |x| < (2 : ℚ) ^ (-126 : ℤ)) :
    ulp_exp x = -149 := by
  have hl := ilog2_lt_of_abs_lt x hx _ h
  unfold ulp_exp
  rw [max_eq_right (by omega)]
  norm_num

theorem isqrt_spec (i : ℕ) : ∀ (t n : ℕ), n * n ≤ t → t < (n + 2 ^ i) * (n + 2 ^ i) →
    isqrt i t n * isqrt i t n ≤ t ∧ t < (isqrt i t n + 1) * (isqrt i t n + 1) := by
  induction i with
  | zero =>
    intro t n h1 h2
    unfold isqrt
    simpa using ⟨h1, h2⟩
  | succ i ih =>
    intro t n h1 h2
    unfold isqrt
    split_ifs with h
    · refine ih t (n + 2 ^ i) h ?_
      rw [pow_succ] at h2
      rw [add_assoc, ← mul_two]
      exact h2
    · exact ih t n h1 (not_le.mp h)

/-- The value `sqrt32 q` is the rounding of `k` units in the last place of the root, where
`k` has 24 significant bits and `k` units are within half a unit of the square root of
`q`: `((k - 1/2) * 2^u)^2 <= q <= ((k + 1/2) * 2^u)^2`. -/
theorem sqrt32_nearest (q : ℚ) (hq : 0 < q) :
    ∃ k : ℕ, sqrt32 q = round32 ((k : ℚ) * 2 ^ (ilog2 q / 2 - 23)) ∧
      2 ^ 23 ≤ k ∧ k ≤ 2 ^ 24 ∧
      (((k : ℚ) - 1 / 2) * 2 ^ (ilog2 q / 2 - 23)) * (((k : ℚ) - 1 / 2) * 2 ^ (ilog2 q / 2 - 23))
        ≤ q ∧
      q ≤ (((k : ℚ) + 1 / 2) * 2 ^ (ilog2 q / 2 - 23))
        * (((k : ℚ) + 1 / 2) * 2 ^ (ilog2 q / 2 - 23)) := by
  obtain ⟨a, b⟩ := ilog2_spec q (ne_of_gt hq)
  rw [abs_of_pos hq] at a b
  have two : (0 : ℚ) < 2 := by norm_num
  have hu : (0 : ℚ) < (2 : ℚ) ^ (ilog2 q / 2 - 23) := zpow_pos two _
  have h4 : (4 : ℚ) ^ (ilog2 q / 2 - 23)
      = (2 : ℚ) ^ (ilog2 q / 2 - 23) * (2 : ℚ) ^ (ilog2 q / 2 - 23) := by
    rw [show (4 : ℚ) = 2 * 2 by norm_num, mul_zpow]
  have h4pos : (0 : ℚ) < (4 : ℚ) ^ (ilog2 q / 2 - 23) := by rw [h4]; positivity
  have e4 : (4 : ℚ) ^ (ilog2 q / 2 - 23) = (2 : ℚ) ^ (2 * (ilog2 q / 2) - 46) := by
    rw [h4, ← zpow_add₀ (by norm_num)]
    congr 1
    ring
  have d1 : 2 * (ilog2 q / 2) ≤ ilog2 q := by omega
  have d2 : ilog2 q ≤ 2 * (ilog2 q / 2) + 1 := by omega
  -- the scaled radicand lies in [2^46, 2^48)
  have t1 : (2 : ℚ) ^ (46 : ℕ) ≤ q / 4 ^ (ilog2 q / 2 - 23) := by
    rw [le_div_iff₀ h4pos, e4, ← zpow_natCast, ← zpow_add₀ (by norm_num)]
    refine le_trans (zpow_le_zpow_right₀ (by norm_num) ?_) a
    push_cast
    omega
  have t2 : q / 4 ^ (ilog2 q / 2 - 23) < (2 : ℚ) ^ (48 : ℕ) := by
    rw [div_lt_iff₀ h4pos, e4, ← zpow_natCast, ← zpow_add₀ (by norm_num)]
    refine lt_of_lt_of_le b (zpow_le_zpow_right₀ (by norm_num) ?_)
    push_cast
    omega
  have tpos : (0 : ℚ) ≤ q / 4 ^ (ilog2 q / 2 - 23) := le_trans (by positivity) t1
  have f1 : ((⌊q / 4 ^ (ilog2 q / 2 - 23)⌋₊ : ℕ) : ℚ) ≤ q / 4 ^ (ilog2 q / 2 - 23) :=
    Nat.floor_le tpos
  have f2 : q / 4 ^ (ilog2 q / 2 - 23) < (⌊q / 4 ^ (ilog2 q / 2 - 23)⌋₊ : ℚ) + 1 :=
    Nat.lt_floor_add_one _
  have f3 : ⌊q / 4 ^ (ilog2 q / 2 - 23)⌋₊ < 2 ^ 48 := by
    have : ((⌊q / 4 ^ (ilog2 q / 2 - 23)⌋₊ : ℕ) : ℚ) < ((2 ^ 48 : ℕ) : ℚ) := by
      push_cast
      exact lt_of_le_of_lt f1 t2
    exact_mod_cast this
  have f4 : 2 ^ 46 ≤ ⌊q / 4 ^ (ilog2 q / 2 - 23)⌋₊ := by
    apply Nat.le_floor
    push_cast
    exact t1
  obtain ⟨s1, s2⟩ := isqrt_spec 24 ⌊q / 4 ^ (ilog2 q / 2 - 23)⌋₊ 0 (by simp)
    (by simpa using f3)
  -- the integer root has 24 significant bits
  have n1 : 2 ^ 23 ≤ isqrt 24 ⌊q / 4 ^ (ilog2 q / 2 - 23)⌋₊ 0 := by
    by_contra hc
    rw [not_le] at hc
    have : (isqrt 24 ⌊q / 4 ^ (ilog2 q / 2 - 23)⌋₊ 0 + 1)
        * (isqrt 24 ⌊q / 4 ^ (ilog2 q / 2 - 23)⌋₊ 0 + 1) ≤ 2 ^ 23 * 2 ^ 23 :=
      Nat.mul_le_mul hc hc
    have e : (2 : ℕ) ^ 23 * 2 ^ 23 = 2 ^ 46 := by norm_num
    omega
  have n2 : isqrt 24 ⌊q / 4 ^ (ilog2 q / 2 - 23)⌋₊ 0 < 2 ^ 24 := by
    by_contra hc
    rw [not_lt] at hc
    have : 2 ^ 24 * 2 ^ 24 ≤ isqrt 24 ⌊q / 4 ^ (ilog2 q / 2 - 23)⌋₊ 0
        * isqrt 24 ⌊q / 4 ^ (ilog2 q / 2 - 23)⌋₊ 0 := Nat.mul_le_mul hc hc
    have e : (2 : ℕ) ^ 24 * 2 ^ 24 = 2 ^ 48 := by norm_num
    omega
  have s1q : ((isqrt 24 ⌊q / 4 ^ (ilog2 q / 2 - 23)⌋₊ 0 : ℕ) : ℚ)
      * (isqrt 24 ⌊q / 4 ^ (ilog2 q / 2 - 23)⌋₊ 0 : ℕ) ≤ q / 4 ^ (ilog2 q / 2 - 23) := by
    refine le_trans ?_ f1
    exact_mod_cast s1
  have s2q : q / 4 ^ (ilog2 q / 2 - 23)
      < ((isqrt 24 ⌊q / 4 ^ (ilog2 q / 2 - 23)⌋₊ 0 : ℕ) + 1 : ℚ)
        * ((isqrt 24 ⌊q / 4 ^ (ilog2 q / 2 - 23)⌋₊ 0 : ℕ) + 1) := by
    have : ((⌊q / 4 ^ (ilog2 q / 2 - 23)⌋₊ : ℕ) : ℚ) + 1
        ≤ ((isqrt 24 ⌊q / 4 ^ (ilog2 q / 2 - 23)⌋₊ 0 : ℕ) + 1 : ℚ)
          * ((isqrt 24 ⌊q / 4 ^ (ilog2 q / 2 - 23)⌋₊ 0 : ℕ) + 1) := by
      exact_mod_cast s2
    linarith
  have n1q : (1 : ℚ) ≤ (isqrt 24 ⌊q / 4 ^ (ilog2 q / 2 - 23)⌋₊ 0 : ℕ) := by
    have : 1 ≤ isqrt 24 ⌊q / 4 ^ (ilog2 q / 2 - 23)⌋₊ 0 := le_trans (by norm_num) n1
    exact_mod_cast this
  have eq : q = q / 4 ^ (ilog2 q / 2 - 23)
      * ((2 : ℚ) ^ (ilog2 q / 2 - 23) * (2 : ℚ) ^ (ilog2 q / 2 - 23)) := by
    rw [← h4, div_mul_cancel₀ _ (ne_of_gt h4pos)]
  have sq : ∀ v : ℚ, v * (2 : ℚ) ^ (ilog2 q / 2 - 23) * (v * (2 : ℚ) ^ (ilog2 q / 2 - 23))
      = v * v * ((2 : ℚ) ^ (ilog2 q / 2 - 23) * (2 : ℚ) ^ (ilog2 q / 2 - 23)) := by
    intro v; ring
  have upos : (0 : ℚ) < (2 : ℚ) ^ (ilog2 q / 2 - 23) * (2 : ℚ) ^ (ilog2 q / 2 - 23) :=
    mul_pos hu hu
  unfold sqrt32
  split_ifs with hc
  · refine ⟨isqrt 24 ⌊q / 4 ^ (ilog2 q / 2 - 23)⌋₊ 0 + 1, rfl, by omega, by omega, ?_, ?_⟩
    · rw [sq]
      conv_rhs => rw [eq]
      refine mul_le_mul_of_nonneg_right ?_ (le_of_lt upos)
      push_cast
      nlinarith
    · rw [sq]
      conv_lhs => rw [eq]
      refine mul_le_mul_of_nonneg_right ?_ (le_of_lt upos)
      push_cast
      nlinarith
  · rw [not_lt] at hc
    refine ⟨isqrt 24 ⌊q / 4 ^ (ilog2 q / 2 - 23)⌋₊ 0, rfl, n1, le_of_lt n2, ?_, ?_⟩
    · rw [sq]
      conv_rhs => rw [eq]
      refine mul_le_mul_of_nonneg_right ?_ (le_of_lt upos)
      nlinarith
    · rw [sq]
      conv_lhs => rw [eq]
      exact mul_le_mul_of_nonneg_right hc (le_of_lt upos)

end F32

/-! ## The float clamp -/

namespace F32

theorem le_refl_of_ne_nan (a : F32) (h : a ≠ nan) : le a a = true := by
  cases a <;> simp [le] at h ⊢

theorem half_nonneg (d : ℚ) (hd : 0 ≤ d) :
    half (fin d) = pinf ∨ ∃ h : ℚ, 0 ≤ h ∧ half (fin d) = fin h := by
  have h0 : 0 ≤ round_fin (d / 2) := round_fin_nonneg _ (by linarith)
  show round32 (d / 2) = pinf ∨ ∃ h : ℚ, 0 ≤ h ∧ round32 (d / 2) = fin h
  unfold round32
  split_ifs with h1 h2
  · exact Or.inl rfl
  · exfalso
    have : (0 : ℚ) < 2 ^ 128 := by norm_num
    linarith
  · exact Or.inr ⟨_, h0, rfl⟩

/-- With a non-negative dimension the two computed bounds of an axis are ordered, and
neither is NaN. -/
theorem bounds_ordered (o d : ℚ) (hd : 0 ≤ d) :
    le (sub (fin o) (half (fin d))) (add (fin o) (half (fin d))) = true ∧
    sub (fin o) (half (fin d)) ≠ nan ∧ add (fin o) (half (fin d)) ≠ nan := by
  rcases half_nonneg d hd with h | ⟨h, h0, e⟩
  · rw [h]
    simp [sub, add, le]
  · rw [e]
    refine ⟨round32_mono _ _ (by linarith), round32_ne_nan _, round32_ne_nan _⟩

theorem clamp_on_range_between (x : ℚ) (lo hi : F32) (hlo : lo ≠ nan) (hhi : hi ≠ nan)
    (h : le lo hi = true) :
    le lo (clamp_on_range (fin x) lo hi) = true ∧
    le (clamp_on_range (fin x) lo hi) hi = true := by
  unfold clamp_on_range
  cases lo <;> cases hi <;>
    simp only [lt, le, ne_eq, not_true_eq_false, decide_eq_true_eq, Bool.false_eq_true,
      if_false, if_true, and_self, not_false_eq_true, reduceCtorEq] at hlo hhi h ⊢
  · split_ifs with a b
    · simp only [le, decide_eq_true_eq]; exact ⟨le_refl _, h⟩
    · simp only [le, decide_eq_true_eq]; exact ⟨h, le_refl _⟩
    · simp only [le, decide_eq_true_eq]; exact ⟨not_lt.mp a, not_lt.mp b⟩
  · split_ifs with a
    · simp only [le, decide_eq_true_eq]; exact ⟨le_refl _, trivial⟩
    · simp only [le, decide_eq_true_eq]; exact ⟨not_lt.mp a, trivial⟩
  · split_ifs with a
    · simp only [le, decide_eq_true_eq]; exact ⟨trivial, le_refl _⟩
    · simp only [le, decide_eq_true_eq]; exact ⟨trivial, not_lt.mp a⟩


theorem clamp_on_range_eq_bound (x : ℚ) (lo hi : F32) (hlo : lo ≠ nan) (hhi : hi ≠ nan)
    (h : ¬ (le lo (fin x) = true ∧ le (fin x) hi = true)) :
    clamp_on_range (fin x) lo hi = lo ∨ clamp_on_range (fin x) lo hi = hi := by
  unfold clamp_on_range
  rcases lo with l | _ | _ | _ <;> rcases hi with u | _ | _ | _
  · simp only [le, decide_eq_true_eq, not_and, not_le] at h
    simp only [lt, decide_eq_true_eq]
    split_ifs with a b
    · exact Or.inl rfl
    · exact Or.inr rfl
    · exact absurd (h (not_lt.mp a)) b
  · simp only [le, decide_eq_true_eq, and_true, not_le] at h
    simp only [lt, decide_eq_true_eq]
    rw [if_pos h]
    exact Or.inl rfl
  · simp only [lt, decide_eq_true_eq, if_true]
    split_ifs
    · exact Or.inl rfl
    · exact Or.inr rfl
  · exact absurd rfl hhi
  · simp [lt]
  · simp [lt]
  · simp [lt]
  · exact absurd rfl hhi
  · simp only [le, decide_eq_true_eq, true_and, not_le] at h
    simp only [lt, decide_eq_true_eq, Bool.false_eq_true, if_false]
    rw [if_pos h]
    exact Or.inr rfl
  · simp [le] at h
  · simp [lt]
  · exact absurd rfl hhi
  all_goals exact absurd rfl hlo

/-- On one axis the float clamp returns a finite value of the computed interval that is at
least as near to `x` as any finite `t` of that interval. -/
theorem clamp_on_range_nearest_fin (x t : ℚ) (lo hi : F32) (h1 : le lo (fin t) = true)
    (h2 : le (fin t) hi = true) :
    ∃ v : ℚ, clamp_on_range (fin x) lo hi = fin v ∧
      le lo (fin v) = true ∧ le (fin v) hi = true ∧
      (x - v) * (x - v) ≤ (x - t) * (x - t) := by
  unfold clamp_on_range
  cases lo <;> cases hi <;>
    simp only [lt, le, decide_eq_true_eq, Bool.false_eq_true, if_false, if_true,
      reduceCtorEq] at h1 h2 ⊢
  · split_ifs with a b
    · exact ⟨_, rfl, le_refl _, le_trans h1 h2, by nlinarith⟩
    · exact ⟨_, rfl, le_trans h1 h2, le_refl _, by nlinarith⟩
    · exact ⟨_, rfl, not_lt.mp a, not_lt.mp b, by rw [sub_self, mul_zero]; exact mul_self_nonneg _⟩
  · split_ifs with a
    · exact ⟨_, rfl, le_refl _, trivial, by nlinarith⟩
    · exact ⟨_, rfl, not_lt.mp a, trivial, by rw [sub_self, mul_zero]; exact mul_self_nonneg _⟩
  · split_ifs with a
    · exact ⟨_, rfl, trivial, le_refl _, by nlinarith⟩
    · exact ⟨_, rfl, trivial, not_lt.mp a, by rw [sub_self, mul_zero]; exact mul_self_nonneg _⟩
  · exact ⟨_, rfl, trivial, trivial, by rw [sub_self, mul_zero]; exact mul_self_nonneg _⟩

theorem clamp_on_range_fin (x lo hi : ℚ) :
    clamp_on_range (fin x) (fin lo) (fin hi) = fin (SphereAABB.clamp_on_range x lo hi) := by
  unfold clamp_on_range SphereAABB.clamp_on_range
  simp only [lt, decide_eq_true_eq, gt_iff_lt]
  split_ifs <;> rfl

theorem clamp_on_rectangle_in_computed_box_aux (p : Vec3) (r : Cuboid) (h : nonneg_dims r) :
    in_computed_box (clamp_on_rectangle p.toF r.toF) r.toF := by
  obtain ⟨hb, hl, hd⟩ := h
  obtain ⟨x1, x2, x3⟩ := bounds_ordered r.origin.x r.breadth hb
  obtain ⟨y1, y2, y3⟩ := bounds_ordered r.origin.y r.length hl
  obtain ⟨z1, z2, z3⟩ := bounds_ordered r.origin.z r.depth hd
  exact ⟨clamp_on_range_between p.x _ _ x2 x3 x1, clamp_on_range_between p.y _ _ y2 y3 y1,
    clamp_on_range_between p.z _ _ z2 z3 z1⟩

end F32

/-! ## The float code against the exact code -/

namespace F32

theorem round32_zero : round32 0 = fin 0 := by
  unfold round32
  rw [round_fin_zero, if_neg (by norm_num), if_neg (by norm_num)]

theorem add_zero_round32 (t : ℚ) : add (round32 t) (fin 0) = round32 t := by
  rcases h : round32 t with v | _ | _ | _
  · show round32 (v + 0) = fin v
    rw [add_zero]
    exact round32_idem t v h
  · rfl
  · rfl
  · rfl

theorem zero_add_round32 (t : ℚ) : add (fin 0) (round32 t) = round32 t := by
  rcases h : round32 t with v | _ | _ | _
  · show round32 (0 + v) = fin v
    rw [zero_add]
    exact round32_idem t v h
  · rfl
  · rfl
  · rfl

theorem add_zero_mul_self (a : F32) : add (mul a a) (fin 0) = mul a a := by
  cases a with
  | fin g => exact add_zero_round32 (g * g)
  | pinf => rfl
  | ninf => rfl
  | nan => rfl

theorem zero_add_mul_self (a : F32) : add (fin 0) (mul a a) = mul a a := by
  cases a with
  | fin g => exact zero_add_round32 (g * g)
  | pinf => rfl
  | ninf => rfl
  | nan => rfl

theorem sub_self_fin (y : ℚ) : sub (fin y) (fin y) = fin 0 := by
  show round32 (y - y) = fin 0
  rw [sub_self, round32_zero]

theorem mul_zero_zero : mul (fin 0) (fin 0) = fin 0 := by
  show round32 (0 * 0) = fin 0
  rw [mul_zero, round32_zero]

theorem add_zero_zero : add (fin 0) (fin 0) = fin 0 := by
  show round32 (0 + 0) = fin 0
  rw [add_zero, round32_zero]

theorem clamp_on_range_of_between (y : ℚ) (lo hi : F32) (h1 : le lo (fin y) = true)
    (h2 : le (fin y) hi = true) : clamp_on_range (fin y) lo hi = fin y := by
  unfold clamp_on_range
  rcases lo with l | _ | _ | _ <;> rcases hi with u | _ | _ | _ <;>
    simp only [le, lt, decide_eq_true_eq, Bool.false_eq_true, if_false] at h1 h2 ⊢
  rw [if_neg (not_lt.mpr h1), if_neg (not_lt.mpr h2)]
  · rw [if_neg (not_lt.mpr h1)]
  · rw [if_neg (not_lt.mpr h2)]

theorem clamp_on_range_above (x : ℚ) (lo hi : F32) (h : le lo hi = true)
    (hx : lt hi (fin x) = true) : clamp_on_range (fin x) lo hi = hi := by
  unfold clamp_on_range
  rw [hx]
  rcases lo with l | _ | _ | _ <;> rcases hi with u | _ | _ | _ <;>
    simp only [le, lt, decide_eq_true_eq, Bool.false_eq_true, if_false, if_true] at h hx ⊢
  rw [if_neg (not_lt.mpr (le_of_lt (lt_of_le_of_lt h hx)))]

/-- When the six bounds are computed without rounding error, the float clamp is the exact
clamp. -/
theorem clamp_on_rectangle_of_exact_bounds (p : Vec3) (c : Cuboid) (h : exact_bounds c) :
    clamp_on_rectangle p.toF c.toF = (SphereAABB.clamp_on_rectangle p c).toF := by
  obtain ⟨⟨x1, x2⟩, ⟨y1, y2⟩, ⟨z1, z2⟩⟩ := h
  unfold clamp_on_rectangle SphereAABB.clamp_on_rectangle
  simp only [Vec3.toF, Cuboid.toF]
  rw [x1, x2, y1, y2, z1, z2, clamp_on_range_fin, clamp_on_range_fin, clamp_on_range_fin]

theorem le_iff_sq_le (y r : ℚ) (hy : 0 ≤ y) : y ≤ r ↔ 0 ≤ r ∧ y * y ≤ r * r := by
  constructor
  · intro h
    exact ⟨le_trans hy h, mul_le_mul h h hy (le_trans hy h)⟩
  · rintro ⟨h1, h2⟩
    by_contra hc
    rw [not_le] at hc
    nlinarith

theorem is_colliding_eq_le (s : FSphere) (c : FCuboid) :
    is_colliding s c = le (distance (clamp_on_rectangle s.origin c) s.origin) s.radius := by
  unfold is_colliding
  simp only []
  cases h : le (distance (clamp_on_rectangle s.origin c) s.origin) s.radius
  · rw [if_neg (by simp)]
  · rw [if_pos rfl]

/-- When the bounds and the distance are computed without rounding error, the float test
is the exact test. -/
theorem is_colliding_of_exact (s : Sphere) (c : Cuboid) (hb : exact_bounds c)
    (hd : exact_distance s c) :
    is_colliding s.toF c.toF = SphereAABB.is_colliding s c := by
  obtain ⟨y, hy0, hyy, hdist⟩ := hd
  have e1 : is_colliding s.toF c.toF = le (fin y) (fin s.radius) := by
    rw [is_colliding_eq_le]
    show le (distance (clamp_on_rectangle s.origin.toF c.toF) s.origin.toF) (fin s.radius) = _
    rw [clamp_on_rectangle_of_exact_bounds s.origin c hb, hdist]
  have e2 : SphereAABB.is_colliding s c = decide (0 ≤ s.radius ∧ y * y ≤ s.radius * s.radius) := by
    unfold SphereAABB.is_colliding sqrt_le
    simp only [hyy]
    simp
  rw [e1, e2]
  show decide (y ≤ s.radius) = decide (0 ≤ s.radius ∧ y * y ≤ s.radius * s.radius)
  exact decide_eq_decide.mpr (le_iff_sq_le y s.radius hy0)

end F32

/-! ## The statements of the exact embedding, on the float code

The statements proved on the exact embedding (containment, idempotence, the degenerate box,
a centre inside the box, a negative radius) hold of the float code as well. -/

namespace F32

/-- A point with float coordinates that lies in the exact box lies in the box with the
computed bounds, when the three half dimensions are computed without rounding error:
rounding is monotone and leaves a float unchanged. -/
theorem in_computed_box_of_inside (p : Vec3) (r : Cuboid) (h : inside p r)
    (hx : round32 p.x = fin p.x) (hy : round32 p.y = fin p.y) (hz : round32 p.z = fin p.z)
    (hb : half (fin r.breadth) = fin (r.breadth / 2))
    (hl : half (fin r.length) = fin (r.length / 2))
    (hd : half (fin r.depth) = fin (r.depth / 2)) :
    in_computed_box p.toF r.toF := by
  obtain ⟨⟨x1, x2⟩, ⟨y1, y2⟩, ⟨z1, z2⟩⟩ := h
  have ax := round32_mono _ _ x1
  have bx := round32_mono _ _ x2
  have ay := round32_mono _ _ y1
  have cy := round32_mono _ _ y2
  have az := round32_mono _ _ z1
  have bz := round32_mono _ _ z2
  rw [hx] at ax bx
  rw [hy] at ay cy
  rw [hz] at az bz
  unfold in_computed_box
  simp only [Vec3.toF, Cuboid.toF]
  rw [hb, hl, hd]
  exact ⟨⟨ax, bx⟩, ⟨ay, cy⟩, ⟨az, bz⟩⟩

/-- Containment on the float code: a point of the box with the computed bounds is returned
unchanged. -/
theorem clamp_on_rectangle_of_in_computed_box (p : Vec3) (r : Cuboid)
    (h : in_computed_box p.toF r.toF) : clamp_on_rectangle p.toF r.toF = p.toF := by
  obtain ⟨⟨x1, x2⟩, ⟨y1, y2⟩, ⟨z1, z2⟩⟩ := h
  unfold clamp_on_rectangle
  simp only [Vec3.toF, Cuboid.toF] at *
  rw [clamp_on_range_of_between _ _ _ x1 x2, clamp_on_range_of_between _ _ _ y1 y2,
    clamp_on_range_of_between _ _ _ z1 z2]

theorem lt_self (a : F32) : lt a a = false := by
  cases a <;> simp [lt]

theorem lt_eq_false_of_le (a b : F32) (h : le a b = true) : lt b a = false := by
  cases a <;> cases b <;> simp [lt, le] at h ⊢
  exact h

theorem clamp_on_range_idem (x lo hi : F32) (h : le lo hi = true) :
    clamp_on_range (clamp_on_range x lo hi) lo hi = clamp_on_range x lo hi := by
  have k := lt_eq_false_of_le lo hi h
  unfold clamp_on_range
  by_cases a : lt x lo = true
  · rw [if_pos a, lt_self, k]
    simp
  · rw [if_neg a]
    by_cases b : lt hi x = true
    · rw [if_pos b, k, lt_self]
      simp
    · rw [if_neg b, if_neg a, if_neg b]

/-- Idempotence on the float code, for non-negative dimensions. -/
theorem clamp_on_rectangle_idem (p : Vec3) (r : Cuboid) (h : nonneg_dims r) :
    clamp_on_rectangle (clamp_on_rectangle p.toF r.toF) r.toF
      = clamp_on_rectangle p.toF r.toF := by
  obtain ⟨hb, hl, hd⟩ := h
  obtain ⟨x1, -, -⟩ := bounds_ordered r.origin.x r.breadth hb
  obtain ⟨y1, -, -⟩ := bounds_ordered r.origin.y r.length hl
  obtain ⟨z1, -, -⟩ := bounds_ordered r.origin.z r.depth hd
  unfold clamp_on_rectangle
  simp only [Vec3.toF, Cuboid.toF] at *
  rw [clamp_on_range_idem _ _ _ x1, clamp_on_range_idem _ _ _ y1, clamp_on_range_idem _ _ _ z1]

theorem clamp_on_range_same (x : ℚ) (b : F32) (hb : b ≠ nan) :
    clamp_on_range (fin x) b b = b := by
  unfold clamp_on_range
  rcases b with v | _ | _ | _
  · simp only [lt, decide_eq_true_eq]
    split_ifs with h1 h2
    · rfl
    · rfl
    · rw [le_antisymm (not_lt.mp h2) (not_lt.mp h1)]
  · simp [lt]
  · simp [lt]
  · exact absurd rfl hb

/-- The degenerate box on the float code: with breadth 0 the x coordinate of the clamped
point is the x coordinate of the cuboid origin (rounded, when it is not a float). -/
theorem clamp_on_rectangle_degenerate_x (p : Vec3) (r : Cuboid) (h : r.breadth = 0) :
    (clamp_on_rectangle p.toF r.toF).x = round32 r.origin.x := by
  have e1 : sub (fin r.origin.x) (half (fin r.breadth)) = round32 r.origin.x := by
    rw [h]
    show sub (fin r.origin.x) (round32 (0 / 2)) = _
    rw [zero_div, round32_zero]
    show round32 (r.origin.x - 0) = _
    rw [sub_zero]
  have e2 : add (fin r.origin.x) (half (fin r.breadth)) = round32 r.origin.x := by
    rw [h]
    show add (fin r.origin.x) (round32 (0 / 2)) = _
    rw [zero_div, round32_zero]
    show round32 (r.origin.x + 0) = _
    rw [add_zero]
  show clamp_on_range (fin p.x) (sub (fin r.origin.x) (half (fin r.breadth)))
    (add (fin r.origin.x) (half (fin r.breadth))) = _
  rw [e1, e2]
  exact clamp_on_range_same _ _ (round32_ne_nan _)

theorem distance_self (p : Vec3) : distance p.toF p.toF = fin 0 := by
  simp only [distance, Vec3.toF]
  rw [sub_self_fin, sub_self_fin, sub_self_fin, mul_zero_zero, add_zero_zero, add_zero_zero]
  simp [sqrt]

/-- A centre inside the box on the float code: a sphere with radius >= 0 whose origin lies in
the box with the computed bounds collides. -/
theorem is_colliding_of_in_computed_box (s : Sphere) (c : Cuboid) (hr : 0 ≤ s.radius)
    (h : in_computed_box s.origin.toF c.toF) : is_colliding s.toF c.toF = true := by
  rw [is_colliding_eq_le]
  show le (distance (clamp_on_rectangle s.origin.toF c.toF) s.origin.toF) (fin s.radius) = true
  rw [clamp_on_rectangle_of_in_computed_box _ _ h, distance_self]
  simpa [le] using hr

theorem round32_nonneg (t : ℚ) (ht : 0 ≤ t) :
    round32 t = pinf ∨ ∃ y : ℚ, 0 ≤ y ∧ round32 t = fin y := by
  have h0 := round_fin_nonneg t ht
  unfold round32
  split_ifs with h1 h2
  · exact Or.inl rfl
  · exfalso
    have : (0 : ℚ) < 2 ^ 128 := by norm_num
    linarith
  · exact Or.inr ⟨_, h0, rfl⟩

/-- A square root is NaN, the positive infinity or a finite value that is not negative. -/
theorem sqrt_cases (a : F32) :
    sqrt a = nan ∨ sqrt a = pinf ∨ ∃ y : ℚ, 0 ≤ y ∧ sqrt a = fin y := by
  rcases a with x | _ | _ | _
  · show (if x < 0 then nan else if x = 0 then fin 0 else sqrt32 x) = nan ∨
      (if x < 0 then nan else if x = 0 then fin 0 else sqrt32 x) = pinf ∨
      ∃ y : ℚ, 0 ≤ y ∧ (if x < 0 then nan else if x = 0 then fin 0 else sqrt32 x) = fin y
    split_ifs with h1 h2
    · exact Or.inl rfl
    · exact Or.inr (Or.inr ⟨0, le_refl 0, rfl⟩)
    · have hx : 0 < x := lt_of_le_of_ne (not_lt.mp h1) (Ne.symm h2)
      obtain ⟨k, e, -, -, -, -⟩ := sqrt32_nearest x hx
      rw [e]
      exact Or.inr (round32_nonneg _ (by positivity))
  · exact Or.inr (Or.inl rfl)
  · exact Or.inl rfl
  · exact Or.inl rfl

/-- A negative radius on the float code: the test is false. -/
theorem is_colliding_of_radius_neg (s : Sphere) (c : Cuboid) (h : s.radius < 0) :
    is_colliding s.toF c.toF = false := by
  rw [is_colliding_eq_le]
  show le (distance (clamp_on_rectangle s.origin.toF c.toF) s.origin.toF) (fin s.radius)
    = false
  unfold distance
  rcases sqrt_cases (add (add
      (mul (sub s.origin.toF.x (clamp_on_rectangle s.origin.toF c.toF).x)
        (sub s.origin.toF.x (clamp_on_rectangle s.origin.toF c.toF).x))
      (mul (sub s.origin.toF.y (clamp_on_rectangle s.origin.toF c.toF).y)
        (sub s.origin.toF.y (clamp_on_rectangle s.origin.toF c.toF).y)))
      (mul (sub s.origin.toF.z (clamp_on_rectangle s.origin.toF c.toF).z)
        (sub s.origin.toF.z (clamp_on_rectangle s.origin.toF c.toF).z)))
    with e | e | ⟨y, hy, e⟩
  · rw [e]; rfl
  · rw [e]; rfl
  · rw [e]
    simp only [le, decide_eq_false_iff_not, not_le]
    linarith

end F32

/-! ## Float points against the exact box -/

namespace F32

theorem clamp_on_range_of_ge_upper (x : ℚ) (lo hi : F32) (h : le lo hi = true)
    (hx : le hi (fin x) = true) : clamp_on_range (fin x) lo hi = hi := by
  unfold clamp_on_range
  rcases lo with l | _ | _ | _ <;> rcases hi with u | _ | _ | _ <;>
    simp only [le, lt, decide_eq_true_eq, Bool.false_eq_true, if_false, if_true] at h hx ⊢
  · rw [if_neg (not_lt.mpr (le_trans h hx))]
    split_ifs with a
    · rfl
    · rw [le_antisymm (not_lt.mp a) hx]
  · split_ifs with a
    · rfl
    · rw [le_antisymm (not_lt.mp a) hx]

theorem clamp_on_range_of_le_lower (x : ℚ) (lo hi : F32) (h : le lo hi = true)
    (hx : le (fin x) lo = true) : clamp_on_range (fin x) lo hi = lo := by
  unfold clamp_on_range
  rcases lo with l | _ | _ | _ <;> rcases hi with u | _ | _ | _ <;>
    simp only [le, lt, decide_eq_true_eq, Bool.false_eq_true, if_false, if_true] at h hx ⊢
  · split_ifs with a b
    · rfl
    · exact absurd (lt_of_le_of_lt h b) (not_lt.mpr hx)
    · rw [le_antisymm hx (not_lt.mp a)]
  · split_ifs with a
    · rfl
    · rw [le_antisymm hx (not_lt.mp a)]

/-- The computed lower bound of an axis, when the half dimension is computed without
rounding error. -/
theorem lower_eq (o d : ℚ) (hh : half (fin d) = fin (d / 2)) :
    sub (fin o) (half (fin d)) = round32 (o - d / 2) := by
  rw [hh]; rfl

/-- The computed upper bound of an axis, when the half dimension is computed without
rounding error. -/
theorem upper_eq (o d : ℚ) (hh : half (fin d) = fin (d / 2)) :
    add (fin o) (half (fin d)) = round32 (o + d / 2) := by
  rw [hh]; rfl

/-- A float below the exact lower bound or above the exact upper bound of an axis is
clamped to a computed bound. -/
theorem clamp_on_range_eq_bound_of_outside (x o d : ℚ) (hd : 0 ≤ d)
    (hx : round32 x = fin x) (hh : half (fin d) = fin (d / 2))
    (hout : x < o - d / 2 ∨ o + d / 2 < x) :
    clamp_on_range (fin x) (sub (fin o) (half (fin d))) (add (fin o) (half (fin d)))
        = sub (fin o) (half (fin d)) ∨
      clamp_on_range (fin x) (sub (fin o) (half (fin d))) (add (fin o) (half (fin d)))
        = add (fin o) (half (fin d)) := by
  obtain ⟨ord, -, -⟩ := bounds_ordered o d hd
  rcases hout with h | h
  · left
    refine clamp_on_range_of_le_lower x _ _ ord ?_
    rw [lower_eq o d hh, ← hx]
    exact round32_mono _ _ (le_of_lt h)
  · right
    refine clamp_on_range_of_ge_upper x _ _ ord ?_
    rw [upper_eq o d hh, ← hx]
    exact round32_mono _ _ (le_of_lt h)

/-- A float above the exact upper bound of an axis is clamped to the computed upper
bound. -/
theorem clamp_on_range_of_above (x o d : ℚ) (hd : 0 ≤ d)
    (hx : round32 x = fin x) (hh : half (fin d) = fin (d / 2)) (h : o + d / 2 < x) :
    clamp_on_range (fin x) (sub (fin o) (half (fin d))) (add (fin o) (half (fin d)))
      = add (fin o) (half (fin d)) := by
  obtain ⟨ord, -, -⟩ := bounds_ordered o d hd
  refine clamp_on_range_of_ge_upper x _ _ ord ?_
  rw [upper_eq o d hh, ← hx]
  exact round32_mono _ _ (le_of_lt h)

/-- A float of the exact interval of an axis is returned unchanged. -/
theorem clamp_on_range_of_inside (x o d : ℚ)
    (hx : round32 x = fin x) (hh : half (fin d) = fin (d / 2))
    (h1 : o - d / 2 ≤ x) (h2 : x ≤ o + d / 2) :
    clamp_on_range (fin x) (sub (fin o) (half (fin d))) (add (fin o) (half (fin d)))
      = fin x := by
  refine clamp_on_range_of_between x _ _ ?_ ?_
  · rw [lower_eq o d hh, ← hx]
    exact round32_mono _ _ h1
  · rw [upper_eq o d hh, ← hx]
    exact round32_mono _ _ h2

end F32

/-! ## C1: clamping, on the float code -/

/-- C1, as stated, fails on the float code: for the cuboid with centre (2^24, 0, 0) and
breadth 3 the exact upper bound of the x axis is 2^24 + 1.5; the code computes the float
2^24 + 2 for it and returns the point (2^24 + 2, 0, 0) unchanged, which lies above the
exact bound. -/
theorem float_clamp_outside_exact_box :
    nonneg_dims wide_cuboid ∧
    F32.add (F32.fin wide_cuboid.origin.x) (F32.half (F32.fin wide_cuboid.breadth))
      = F32.fin 16777218 ∧
    F32.clamp_on_rectangle (Vec3.toF ⟨16777218, 0, 0⟩) wide_cuboid.toF
      = Vec3.toF ⟨16777218, 0, 0⟩ ∧
    ¬ inside ⟨16777218, 0, 0⟩ wide_cuboid ∧
    ¬ ((16777218 : ℚ) ≤ wide_cuboid.origin.x + wide_cuboid.breadth / 2) := by
  refine ⟨by decide!, by decide!, by decide!, by decide!, by decide!⟩

/-- C1 (clamping), amended: for every point `p` and every cuboid with non-negative breadth,
length and depth, `clamp_on_rectangle (p, r)` as the float code computes it lies, on every
axis, between the two bounds as the code computes them: the floats nearest to
`origin - dimension / 2` and to `origin + dimension / 2`. -/
theorem float_clamp_in_computed_box (p : Vec3) (r : Cuboid)
    (hb : 0 ≤ r.breadth) (hl : 0 ≤ r.length) (hd : 0 ≤ r.depth) :
    F32.in_computed_box (F32.clamp_on_rectangle p.toF r.toF) r.toF :=
  F32.clamp_on_rectangle_in_computed_box_aux p r ⟨hb, hl, hd⟩

theorem float_clamp_in_computed_box_witness :
    (0 ≤ wide_cuboid.breadth ∧ 0 ≤ wide_cuboid.length ∧ 0 ≤ wide_cuboid.depth) ∧
    F32.clamp_on_rectangle (Vec3.toF ⟨16777220, 0, 10⟩) wide_cuboid.toF
      = Vec3.toF ⟨16777218, 0, 1 / 2⟩ ∧
    F32.in_computed_box (F32.clamp_on_rectangle (Vec3.toF ⟨16777220, 0, 10⟩) wide_cuboid.toF)
      wide_cuboid.toF :=
  ⟨by decide!, by decide!,
    float_clamp_in_computed_box ⟨16777220, 0, 10⟩ wide_cuboid (by decide!) (by decide!)
      (by decide!)⟩

/-! ## C3: the nearest point, on the float code -/

/-- C3, as stated, fails on the float code: for the unit cube with centre (2^24, 0, 0) the
exact upper bound 2^24 + 0.5 of the x axis rounds to 2^24, so the point (2^24 + 2, 0, 0) is
clamped to (2^24, 0, 0), at distance 2, while the point (2^24 + 0.5, 0, 0) of the box is at
distance 1.5. -/
theorem float_clamp_not_closest :
    nonneg_dims large_cuboid ∧
    inside ⟨16777216 + 1 / 2, 0, 0⟩ large_cuboid ∧
    F32.clamp_on_rectangle (Vec3.toF ⟨16777218, 0, 0⟩) large_cuboid.toF
      = Vec3.toF ⟨16777216, 0, 0⟩ ∧
    ¬ (Real.sqrt ((distance2 ⟨16777218, 0, 0⟩ ⟨16777216, 0, 0⟩ : ℚ) : ℝ)
      ≤ Real.sqrt ((distance2 ⟨16777218, 0, 0⟩ ⟨16777216 + 1 / 2, 0, 0⟩ : ℚ) : ℝ)) := by
  refine ⟨by decide!, by decide!, by decide!, ?_⟩
  have e1 : distance2 ⟨16777218, 0, 0⟩ ⟨16777216, 0, 0⟩ = 2 * 2 := by decide!
  have e2 : distance2 ⟨16777218, 0, 0⟩ ⟨16777216 + 1 / 2, 0, 0⟩ = (3 / 2) * (3 / 2) := by
    decide!
  rw [e1, e2]
  push_cast
  rw [Real.sqrt_mul_self (by norm_num), Real.sqrt_mul_self (by norm_num)]
  norm_num

/-- C3 (closest point), amended: for every point `p`, every cuboid with non-negative
dimensions and every point `q` of the box whose bounds are the floats the code computes,
the float code returns a point with finite coordinates that lies in that box and whose
Euclidean distance to `p` is at most the distance from `p` to `q`.  In particular this
holds for every point `q` with float coordinates on or inside the cuboid, when the three
half dimensions are computed without rounding error. -/
theorem float_clamp_closest_in_computed_box (p q : Vec3) (r : Cuboid) (_h : nonneg_dims r) :
    (F32.in_computed_box q.toF r.toF →
      ∃ v : Vec3, F32.clamp_on_rectangle p.toF r.toF = v.toF ∧
        F32.in_computed_box v.toF r.toF ∧
        Real.sqrt ((distance2 p v : ℚ) : ℝ) ≤ Real.sqrt ((distance2 p q : ℚ) : ℝ)) ∧
    (inside q r → float_point q → exact_halves r →
      ∃ v : Vec3, F32.clamp_on_rectangle p.toF r.toF = v.toF ∧
        F32.in_computed_box v.toF r.toF ∧
        Real.sqrt ((distance2 p v : ℚ) : ℝ) ≤ Real.sqrt ((distance2 p q : ℚ) : ℝ)) := by
  have key : F32.in_computed_box q.toF r.toF →
      ∃ v : Vec3, F32.clamp_on_rectangle p.toF r.toF = v.toF ∧
        F32.in_computed_box v.toF r.toF ∧
        Real.sqrt ((distance2 p v : ℚ) : ℝ) ≤ Real.sqrt ((distance2 p q : ℚ) : ℝ) := by
    intro hq
    obtain ⟨⟨qx1, qx2⟩, ⟨qy1, qy2⟩, ⟨qz1, qz2⟩⟩ := hq
    obtain ⟨vx, ex, ax, bx, dx⟩ := F32.clamp_on_range_nearest_fin p.x q.x _ _ qx1 qx2
    obtain ⟨vy, ey, ay, cy, dy⟩ := F32.clamp_on_range_nearest_fin p.y q.y _ _ qy1 qy2
    obtain ⟨vz, ez, az, bz, dz⟩ := F32.clamp_on_range_nearest_fin p.z q.z _ _ qz1 qz2
    refine ⟨⟨vx, vy, vz⟩, ?_, ⟨⟨ax, bx⟩, ⟨ay, cy⟩, ⟨az, bz⟩⟩, Real.sqrt_le_sqrt ?_⟩
    · show F32.clamp_on_rectangle p.toF r.toF = ⟨F32.fin vx, F32.fin vy, F32.fin vz⟩
      unfold F32.clamp_on_rectangle
      rw [← ex, ← ey, ← ez]
      rfl
    · have k : distance2 p ⟨vx, vy, vz⟩ ≤ distance2 p q := by
        rw [distance2_eq, distance2_eq]
        show (vx - p.x) * (vx - p.x) + (vy - p.y) * (vy - p.y) + (vz - p.z) * (vz - p.z)
          ≤ (q.x - p.x) * (q.x - p.x) + (q.y - p.y) * (q.y - p.y) + (q.z - p.z) * (q.z - p.z)
        nlinarith
      exact_mod_cast k
  refine ⟨key, ?_⟩
  intro hin hq hh
  exact key (F32.in_computed_box_of_inside q r hin hq.1 hq.2.1 hq.2.2 hh.1 hh.2.1 hh.2.2)

theorem float_clamp_closest_in_computed_box_witness :
    nonneg_dims large_cuboid ∧
    F32.in_computed_box (Vec3.toF ⟨16777216, 1 / 4, 0⟩) large_cuboid.toF ∧
    inside ⟨16777216, 1 / 4, 0⟩ large_cuboid ∧
    ∃ v : Vec3, F32.clamp_on_rectangle (Vec3.toF ⟨16777218, 0, 0⟩) large_cuboid.toF = v.toF ∧
      F32.in_computed_box v.toF large_cuboid.toF ∧
      Real.sqrt ((distance2 ⟨16777218, 0, 0⟩ v : ℚ) : ℝ)
        ≤ Real.sqrt ((distance2 ⟨16777218, 0, 0⟩ ⟨16777216, 1 / 4, 0⟩ : ℚ) : ℝ) :=
  ⟨by decide!, by decide!, by decide!,
    (float_clamp_closest_in_computed_box ⟨16777218, 0, 0⟩ ⟨16777216, 1 / 4, 0⟩ large_cuboid
      (by decide!)).2 (by decide!) (by decide!) (by decide!)⟩

/-! ## C8: a point outside, on the float code -/

/-- C8, as stated, fails on the float code: for the cuboid with centre (0.1f, 0, 0) and
breadth 0.6f the exact lower bound of the x axis is -26843547 / 2^27; the code computes the
float -6710887 / 2^25 for it and clamps the point (-1, 0, 0), which is outside on the x axis
only, to that float.  The result is below the exact bound, so it is not inside the box, and
none of its coordinates is an exact bound. -/
theorem float_clamp_not_on_exact_boundary :
    nonneg_dims tenth_cuboid ∧ ¬ inside ⟨-1, 0, 0⟩ tenth_cuboid ∧
    F32.clamp_on_rectangle (Vec3.toF ⟨-1, 0, 0⟩) tenth_cuboid.toF
      = Vec3.toF ⟨-6710887 / 33554432, 0, 0⟩ ∧
    ¬ inside ⟨-6710887 / 33554432, 0, 0⟩ tenth_cuboid ∧
    ¬ ((((-6710887 / 33554432 : ℚ) = tenth_cuboid.origin.x - tenth_cuboid.breadth / 2) ∨
        ((-6710887 / 33554432 : ℚ) = tenth_cuboid.origin.x + tenth_cuboid.breadth / 2)) ∨
      (((0 : ℚ) = tenth_cuboid.origin.y - tenth_cuboid.length / 2) ∨
        ((0 : ℚ) = tenth_cuboid.origin.y + tenth_cuboid.length / 2)) ∨
      (((0 : ℚ) = tenth_cuboid.origin.z - tenth_cuboid.depth / 2) ∨
        ((0 : ℚ) = tenth_cuboid.origin.z + tenth_cuboid.depth / 2))) := by
  refine ⟨by decide!, by decide!, by decide!, by decide!, by decide!⟩

/-- C8 (outside maps to the boundary), amended: for every cuboid with non-negative
dimensions and every point `p` that is outside the box whose bounds are the floats the code
computes, or that has float coordinates and is outside the cuboid while the three half
dimensions are computed without rounding error, the float code returns a point that lies
between the computed bounds on every axis and, on at least one axis, has the computed lower
or upper bound as its coordinate. -/
theorem float_clamp_outside_on_computed_boundary (p : Vec3) (r : Cuboid)
    (h : nonneg_dims r)
    (hp : ¬ F32.in_computed_box p.toF r.toF ∨
      (¬ inside p r ∧ float_point p ∧ exact_halves r)) :
    F32.in_computed_box (F32.clamp_on_rectangle p.toF r.toF) r.toF ∧
    (((F32.clamp_on_rectangle p.toF r.toF).x
          = F32.sub (F32.fin r.origin.x) (F32.half (F32.fin r.breadth)) ∨
        (F32.clamp_on_rectangle p.toF r.toF).x
          = F32.add (F32.fin r.origin.x) (F32.half (F32.fin r.breadth))) ∨
      ((F32.clamp_on_rectangle p.toF r.toF).y
          = F32.sub (F32.fin r.origin.y) (F32.half (F32.fin r.length)) ∨
        (F32.clamp_on_rectangle p.toF r.toF).y
          = F32.add (F32.fin r.origin.y) (F32.half (F32.fin r.length))) ∨
      ((F32.clamp_on_rectangle p.toF r.toF).z
          = F32.sub (F32.fin r.origin.z) (F32.half (F32.fin r.depth)) ∨
        (F32.clamp_on_rectangle p.toF r.toF).z
          = F32.add (F32.fin r.origin.z) (F32.half (F32.fin r.depth)))) := by
  refine ⟨F32.clamp_on_rectangle_in_computed_box_aux p r h, ?_⟩
  obtain ⟨hb, hl, hd⟩ := h
  rcases hp with hp | ⟨hp, ⟨fx, fy, fz⟩, ⟨ex, ey, ez⟩⟩
  · obtain ⟨-, x2, x3⟩ := F32.bounds_ordered r.origin.x r.breadth hb
    obtain ⟨-, y2, y3⟩ := F32.bounds_ordered r.origin.y r.length hl
    obtain ⟨-, z2, z3⟩ := F32.bounds_ordered r.origin.z r.depth hd
    by_cases hx : F32.le (F32.sub (F32.fin r.origin.x) (F32.half (F32.fin r.breadth)))
        (F32.fin p.x) = true ∧
      F32.le (F32.fin p.x) (F32.add (F32.fin r.origin.x) (F32.half (F32.fin r.breadth))) = true
    · by_cases hy : F32.le (F32.sub (F32.fin r.origin.y) (F32.half (F32.fin r.length)))
          (F32.fin p.y) = true ∧
        F32.le (F32.fin p.y) (F32.add (F32.fin r.origin.y) (F32.half (F32.fin r.length))) = true
      · by_cases hz : F32.le (F32.sub (F32.fin r.origin.z) (F32.half (F32.fin r.depth)))
            (F32.fin p.z) = true ∧
          F32.le (F32.fin p.z) (F32.add (F32.fin r.origin.z) (F32.half (F32.fin r.depth))) = true
        · exact absurd ⟨hx, hy, hz⟩ hp
        · exact Or.inr (Or.inr (F32.clamp_on_range_eq_bound p.z _ _ z2 z3 hz))
      · exact Or.inr (Or.inl (F32.clamp_on_range_eq_bound p.y _ _ y2 y3 hy))
    · exact Or.inl (F32.clamp_on_range_eq_bound p.x _ _ x2 x3 hx)
  · by_cases hx : r.origin.x - r.breadth / 2 ≤ p.x ∧ p.x ≤ r.origin.x + r.breadth / 2
    · by_cases hy : r.origin.y - r.length / 2 ≤ p.y ∧ p.y ≤ r.origin.y + r.length / 2
      · by_cases hz : r.origin.z - r.depth / 2 ≤ p.z ∧ p.z ≤ r.origin.z + r.depth / 2
        · exact absurd ⟨hx, hy, hz⟩ hp
        · refine Or.inr (Or.inr
            (F32.clamp_on_range_eq_bound_of_outside p.z r.origin.z r.depth hd fz ez ?_))
          rcases not_and_or.mp hz with a | a
          · exact Or.inl (not_le.mp a)
          · exact Or.inr (not_le.mp a)
      · refine Or.inr (Or.inl
          (F32.clamp_on_range_eq_bound_of_outside p.y r.origin.y r.length hl fy ey ?_))
        rcases not_and_or.mp hy with a | a
        · exact Or.inl (not_le.mp a)
        · exact Or.inr (not_le.mp a)
    · refine Or.inl
        (F32.clamp_on_range_eq_bound_of_outside p.x r.origin.x r.breadth hb fx ex ?_)
      rcases not_and_or.mp hx with a | a
      · exact Or.inl (not_le.mp a)
      · exact Or.inr (not_le.mp a)

theorem float_clamp_outside_on_computed_boundary_witness :
    nonneg_dims tenth_cuboid ∧
    (¬ F32.in_computed_box (Vec3.toF ⟨-1, 0, 0⟩) tenth_cuboid.toF ∧
      (F32.clamp_on_rectangle (Vec3.toF ⟨-1, 0, 0⟩) tenth_cuboid.toF).x
        = F32.sub (F32.fin tenth_cuboid.origin.x) (F32.half (F32.fin tenth_cuboid.breadth)) ∧
      F32.in_computed_box (F32.clamp_on_rectangle (Vec3.toF ⟨-1, 0, 0⟩) tenth_cuboid.toF)
        tenth_cuboid.toF) ∧
    (¬ inside ⟨-6710887 / 33554432, 0, 0⟩ tenth_cuboid ∧
      float_point ⟨-6710887 / 33554432, 0, 0⟩ ∧ exact_halves tenth_cuboid ∧
      (F32.clamp_on_rectangle (Vec3.toF ⟨-6710887 / 33554432, 0, 0⟩) tenth_cuboid.toF).x
        = F32.sub (F32.fin tenth_cuboid.origin.x) (F32.half (F32.fin tenth_cuboid.breadth)) ∧
      F32.in_computed_box
        (F32.clamp_on_rectangle (Vec3.toF ⟨-6710887 / 33554432, 0, 0⟩) tenth_cuboid.toF)
        tenth_cuboid.toF) :=
  ⟨by decide!,
    ⟨by decide!, by decide!,
      (float_clamp_outside_on_computed_boundary ⟨-1, 0, 0⟩ tenth_cuboid (by decide!)
        (Or.inl (by decide!))).1⟩,
    ⟨by decide!, by decide!, by decide!, by decide!,
      (float_clamp_outside_on_computed_boundary ⟨-6710887 / 33554432, 0, 0⟩ tenth_cuboid
        (by decide!) (Or.inr ⟨by decide!, by decide!, by decide!⟩)).1⟩⟩

/-! ## C4: the inclusive distance test, on the float code -/

/-- C4, as stated, fails on the float code, in both directions.  For the sphere of radius 1
with centre (1.5, 0.25 + 2^-13, 0) and the box of `setup ()` the closest point is
(0.5, 0.25, 0) and the Euclidean distance is the square root of 1 + 2^-26, more than the
radius, but the float sum 1 + 2^-26 rounds to 1 and the code returns true.  For the sphere
of radius 2^68 with centre (2^68, 0, 0) and the cuboid of dimensions 0 at the origin the
distance equals the radius, but the square 2^136 overflows and the code returns false. -/
theorem float_is_colliding_not_exact_distance :
    (F32.clamp_on_rectangle grazing_sphere.origin.toF setup_cuboid.toF
        = (clamp_on_rectangle grazing_sphere.origin setup_cuboid).toF ∧
      F32.is_colliding grazing_sphere.toF setup_cuboid.toF = true ∧
      ¬ (Real.sqrt ((distance2 (clamp_on_rectangle grazing_sphere.origin setup_cuboid)
          grazing_sphere.origin : ℚ) : ℝ) ≤ (grazing_sphere.radius : ℝ))) ∧
    (F32.clamp_on_rectangle huge_sphere.origin.toF point_cuboid.toF
        = (clamp_on_rectangle huge_sphere.origin point_cuboid).toF ∧
      Real.sqrt ((distance2 (clamp_on_rectangle huge_sphere.origin point_cuboid)
          huge_sphere.origin : ℚ) : ℝ) = (huge_sphere.radius : ℝ) ∧
      F32.is_colliding huge_sphere.toF point_cuboid.toF = false) := by
  refine ⟨⟨by decide!, by decide!, ?_⟩, ⟨by decide!, ?_, by decide!⟩⟩
  · have e : distance2 (clamp_on_rectangle grazing_sphere.origin setup_cuboid)
        grazing_sphere.origin = 67108865 / 67108864 := by decide!
    have r : grazing_sphere.radius = 1 := rfl
    rw [e, r, not_le, Real.lt_sqrt (by norm_num)]
    norm_num
  · have e : distance2 (clamp_on_rectangle huge_sphere.origin point_cuboid)
        huge_sphere.origin = 2 ^ 68 * 2 ^ 68 := by decide!
    have r : huge_sphere.radius = 2 ^ 68 := rfl
    rw [e, r]
    push_cast
    exact Real.sqrt_mul_self (by norm_num)

/-- C4 (inclusive distance test), amended: for every sphere and cuboid with finite fields,
the float `is_colliding` is true if and only if the distance as the code computes it (the
float `glm::distance` between the float clamped point and the sphere origin, every
operation rounded) is less than or equal to the radius; in particular it is true when that
computed distance equals the radius.  When the bounds and the distance are computed
without rounding error, the computed distance is the Euclidean distance. -/
theorem float_is_colliding_iff_computed_distance_le (s : Sphere) (c : Cuboid) :
    (F32.is_colliding s.toF c.toF = true ↔
      F32.le (F32.distance (F32.clamp_on_rectangle s.origin.toF c.toF) s.origin.toF)
        (F32.fin s.radius) = true) ∧
    (F32.distance (F32.clamp_on_rectangle s.origin.toF c.toF) s.origin.toF
        = F32.fin s.radius → F32.is_colliding s.toF c.toF = true) ∧
    (exact_bounds c → exact_distance s c →
      (F32.is_colliding s.toF c.toF = true ↔
        Real.sqrt ((distance2 (clamp_on_rectangle s.origin c) s.origin : ℚ) : ℝ)
          ≤ (s.radius : ℝ))) := by
  have e : F32.is_colliding s.toF c.toF
      = F32.le (F32.distance (F32.clamp_on_rectangle s.origin.toF c.toF) s.origin.toF)
        (F32.fin s.radius) := F32.is_colliding_eq_le s.toF c.toF
  refine ⟨by rw [e], ?_, ?_⟩
  · intro h
    rw [e, h]
    exact F32.le_refl_of_ne_nan _ (by simp)
  · intro hb hd
    rw [F32.is_colliding_of_exact s c hb hd]
    exact is_colliding_iff_real s c

theorem float_is_colliding_iff_computed_distance_le_witness :
    F32.distance (F32.clamp_on_rectangle touching_sphere.origin.toF setup_cuboid.toF)
      touching_sphere.origin.toF = F32.fin touching_sphere.radius ∧
    F32.is_colliding touching_sphere.toF setup_cuboid.toF = true ∧
    exact_bounds setup_cuboid ∧ exact_distance touching_sphere setup_cuboid ∧
    Real.sqrt ((distance2 (clamp_on_rectangle touching_sphere.origin setup_cuboid)
      touching_sphere.origin : ℚ) : ℝ) ≤ (touching_sphere.radius : ℝ) := by
  have h : F32.distance (F32.clamp_on_rectangle touching_sphere.origin.toF setup_cuboid.toF)
      touching_sphere.origin.toF = F32.fin touching_sphere.radius := by decide!
  have hb : exact_bounds setup_cuboid := by decide!
  have hd : exact_distance touching_sphere setup_cuboid :=
    ⟨1 / 2, by norm_num, by decide!, by decide!⟩
  have t := float_is_colliding_iff_computed_distance_le touching_sphere setup_cuboid
  exact ⟨h, t.2.1 h, hb, hd, (t.2.2 hb hd).mp (t.2.1 h)⟩

/-! ## C5: ball and box, on the float code -/

/-- C5, as stated, fails on the float code, in both directions.  The ball of radius 2^68
with centre (2^68, 0, 0) contains the point (0.5, 0, 0) of the box of `setup ()`, but the
square of the float distance overflows and the code returns false.  The ball of radius 0
with centre (2^-80, 0, 0) does not meet the cuboid of dimensions 0 at the origin, but the
square of the distance underflows to 0 and the code returns true. -/
theorem float_is_colliding_not_exact_intersection :
    (0 ≤ huge_sphere.radius ∧ nonneg_dims setup_cuboid ∧
      F32.is_colliding huge_sphere.toF setup_cuboid.toF = false ∧
      ∃ q : Vec3, inside q setup_cuboid ∧
        Real.sqrt ((distance2 q huge_sphere.origin : ℚ) : ℝ) ≤ (huge_sphere.radius : ℝ)) ∧
    (0 ≤ tiny_sphere.radius ∧ nonneg_dims point_cuboid ∧
      F32.is_colliding tiny_sphere.toF point_cuboid.toF = true ∧
      ¬ ∃ q : Vec3, inside q point_cuboid ∧
        Real.sqrt ((distance2 q tiny_sphere.origin : ℚ) : ℝ) ≤ (tiny_sphere.radius : ℝ)) := by
  refine ⟨⟨by decide!, by decide!, by decide!, ⟨⟨1 / 2, 0, 0⟩, by decide!, ?_⟩⟩,
    ⟨by decide!, by decide!, by decide!, ?_⟩⟩
  · have e : distance2 ⟨1 / 2, 0, 0⟩ huge_sphere.origin
        = (2 ^ 68 - 1 / 2) * (2 ^ 68 - 1 / 2) := by decide!
    have r : huge_sphere.radius = 2 ^ 68 := rfl
    rw [e, r]
    push_cast
    rw [Real.sqrt_mul_self (by norm_num)]
    norm_num
  · intro hq
    have h0 : is_colliding tiny_sphere point_cuboid = false := by decide!
    have h1 := (exact_is_colliding_iff_intersect tiny_sphere point_cuboid (by decide!)
      (by decide!)).1.mpr hq
    rw [h0] at h1
    exact Bool.false_ne_true h1

/-- C5 (exact intersection), amended: for every sphere with radius >= 0 and every cuboid
with non-negative dimensions for which the code computes the six bounds and the distance
without rounding error, the float `is_colliding` is true if and only if some point `q` on
or inside the cuboid is at Euclidean distance at most the radius from the sphere origin.
The second part says the same of points with real coordinates. -/
theorem float_is_colliding_iff_intersect_of_exact (s : Sphere) (c : Cuboid)
    (hr : 0 ≤ s.radius) (h : nonneg_dims c) (hb : exact_bounds c)
    (hd : exact_distance s c) :
    (F32.is_colliding s.toF c.toF = true ↔
      ∃ q : Vec3, inside q c ∧
        Real.sqrt ((distance2 q s.origin : ℚ) : ℝ) ≤ (s.radius : ℝ)) ∧
    (F32.is_colliding s.toF c.toF = true ↔
      ∃ x y z : ℝ,
        (((c.origin.x - c.breadth / 2 : ℚ) : ℝ) ≤ x ∧
          x ≤ ((c.origin.x + c.breadth / 2 : ℚ) : ℝ)) ∧
        (((c.origin.y - c.length / 2 : ℚ) : ℝ) ≤ y ∧
          y ≤ ((c.origin.y + c.length / 2 : ℚ) : ℝ)) ∧
        (((c.origin.z - c.depth / 2 : ℚ) : ℝ) ≤ z ∧
          z ≤ ((c.origin.z + c.depth / 2 : ℚ) : ℝ)) ∧
        Real.sqrt ((x - s.origin.x) ^ 2 + (y - s.origin.y) ^ 2 + (z - s.origin.z) ^ 2)
          ≤ (s.radius : ℝ)) := by
  rw [F32.is_colliding_of_exact s c hb hd]
  exact exact_is_colliding_iff_intersect s c hr h

theorem float_is_colliding_iff_intersect_of_exact_witness :
    0 ≤ near_sphere32.radius ∧ nonneg_dims setup_cuboid ∧ exact_bounds setup_cuboid ∧
    exact_distance near_sphere32 setup_cuboid ∧
    F32.is_colliding near_sphere32.toF setup_cuboid.toF = false ∧
    ¬ (∃ q : Vec3, inside q setup_cuboid ∧
        Real.sqrt ((distance2 q near_sphere32.origin : ℚ) : ℝ) ≤ (near_sphere32.radius : ℝ)) := by
  have h0 : 0 ≤ near_sphere32.radius := by decide!
  have h1 : nonneg_dims setup_cuboid := by decide!
  have hb : exact_bounds setup_cuboid := by decide!
  have hd : exact_distance near_sphere32 setup_cuboid :=
    ⟨1 / 2, by norm_num, by decide!, by decide!⟩
  have h2 : F32.is_colliding near_sphere32.toF setup_cuboid.toF = false := by decide!
  refine ⟨h0, h1, hb, hd, h2, ?_⟩
  intro hq
  have h3 := (float_is_colliding_iff_intersect_of_exact near_sphere32 setup_cuboid h0 h1 hb
    hd).1.mpr hq
  rw [h2] at h3
  exact Bool.false_ne_true h3

/-! ## C6: a sphere far from the centre of the box, on the float code -/

/-- C6, as stated, fails on the float code: for the unit cube at the origin and the sphere
with centre (1.5, 1.5, 1.5) whose radius is the float nearest to the square root of 3 (it
is smaller than the square root of 3) the distance between the centres is 1.5 times the
square root of 3, more than the radius plus 0.5 times the square root of 3, but the code
computes the distance of the corner (0.5, 0.5, 0.5) as that same float and returns true. -/
theorem float_is_colliding_true_when_far :
    0 ≤ corner_sphere.radius ∧ nonneg_dims unit_cube ∧
    (corner_sphere.radius : ℝ)
        + ((max (max (unit_cube.breadth / 2) (unit_cube.length / 2))
            (unit_cube.depth / 2) : ℚ) : ℝ) * Real.sqrt 3
      < Real.sqrt ((distance2 corner_sphere.origin unit_cube.origin : ℚ) : ℝ) ∧
    F32.is_colliding corner_sphere.toF unit_cube.toF = true := by
  refine ⟨by decide!, by decide!, ?_, by decide!⟩
  have e1 : distance2 corner_sphere.origin unit_cube.origin = (3 / 2) * (3 / 2) * 3 := by
    decide!
  have e2 : max (max (unit_cube.breadth / 2) (unit_cube.length / 2)) (unit_cube.depth / 2)
      = 1 / 2 := by decide!
  have e3 : corner_sphere.radius = 14529495 / 8388608 := rfl
  have h3 : ((14529495 / 8388608 : ℚ) : ℝ) < Real.sqrt 3 := by
    rw [Real.lt_sqrt (by positivity)]
    norm_num
  rw [e1, e2, e3]
  push_cast
  rw [Real.sqrt_mul (by norm_num), Real.sqrt_mul_self (by norm_num)]
  push_cast at h3
  linarith

/-- C6 (symmetry of miss), amended: for every sphere with radius >= 0 and every cuboid with
non-negative dimensions for which the code computes the six bounds and the distance
without rounding error, if the Euclidean distance from the sphere origin to the cuboid
origin is strictly greater than `radius + max (breadth / 2, length / 2, depth / 2) *
sqrt 3`, then the float `is_colliding` is false. -/
theorem float_is_colliding_false_of_far_of_exact (s : Sphere) (c : Cuboid)
    (hr : 0 ≤ s.radius) (h : nonneg_dims c) (hb : exact_bounds c) (hd : exact_distance s c)
    (hfar : (s.radius : ℝ)
        + ((max (max (c.breadth / 2) (c.length / 2)) (c.depth / 2) : ℚ) : ℝ) * Real.sqrt 3
      < Real.sqrt ((distance2 s.origin c.origin : ℚ) : ℝ)) :
    F32.is_colliding s.toF c.toF = false := by
  rw [F32.is_colliding_of_exact s c hb hd]
  exact exact_is_colliding_false_of_far s c hr h hfar

theorem float_is_colliding_false_of_far_of_exact_witness :
    0 ≤ far_sphere.radius ∧ nonneg_dims setup_cuboid ∧ exact_bounds setup_cuboid ∧
    exact_distance far_sphere setup_cuboid ∧
    F32.is_colliding far_sphere.toF setup_cuboid.toF = false := by
  have h0 : 0 ≤ far_sphere.radius := by decide!
  have h1 : nonneg_dims setup_cuboid := by decide!
  have hb : exact_bounds setup_cuboid := by decide!
  have hd : exact_distance far_sphere setup_cuboid :=
    ⟨39 / 4, by norm_num, by decide!, by decide!⟩
  refine ⟨h0, h1, hb, hd,
    float_is_colliding_false_of_far_of_exact far_sphere setup_cuboid h0 h1 hb hd ?_⟩
  have e1 : distance2 far_sphere.origin setup_cuboid.origin = 10 * 10 := by decide!
  have e2 : max (max (setup_cuboid.breadth / 2) (setup_cuboid.length / 2))
      (setup_cuboid.depth / 2) = 1 / 2 := by decide!
  have e3 : far_sphere.radius = 1 := rfl
  have h3 : Real.sqrt 3 ≤ 2 := by
    rw [Real.sqrt_le_left (by norm_num)]
    norm_num
  rw [e1, e2, e3]
  push_cast
  rw [Real.sqrt_mul_self (by norm_num)]
  linarith

/-! ## C10: the sphere in front of a face, on the float code -/

/-- C10, as stated, fails on the float code: for the box of `setup ()` moved to the centre
(-1, 0, 0) and the sphere with centre (2 - 3 * 2^-23, 0, 0) and radius 2.5 - 2^-21 the
closest point is (-0.5, 0, 0), as the claim says, and the gap 2.5 - 3 * 2^-23 is larger
than the radius, but the float difference is a tie that rounds to the radius and the code
returns true. -/
theorem float_face_region_gap_rounds :
    nonneg_dims left_cuboid ∧ exact_halves left_cuboid ∧
    float_point tie_sphere.origin ∧ F32.round32 tie_sphere.radius = F32.fin tie_sphere.radius ∧
    left_cuboid.origin.x + left_cuboid.breadth / 2 < tie_sphere.origin.x ∧
    (left_cuboid.origin.y - left_cuboid.length / 2 ≤ tie_sphere.origin.y ∧
      tie_sphere.origin.y ≤ left_cuboid.origin.y + left_cuboid.length / 2) ∧
    (left_cuboid.origin.z - left_cuboid.depth / 2 ≤ tie_sphere.origin.z ∧
      tie_sphere.origin.z ≤ left_cuboid.origin.z + left_cuboid.depth / 2) ∧
    F32.clamp_on_rectangle tie_sphere.origin.toF left_cuboid.toF
      = Vec3.toF ⟨left_cuboid.origin.x + left_cuboid.breadth / 2, tie_sphere.origin.y,
          tie_sphere.origin.z⟩ ∧
    ¬ (tie_sphere.origin.x - (left_cuboid.origin.x + left_cuboid.breadth / 2)
      ≤ tie_sphere.radius) ∧
    F32.sub (F32.fin tie_sphere.origin.x) (F32.fin (-1 / 2)) = F32.fin tie_sphere.radius ∧
    F32.is_colliding tie_sphere.toF left_cuboid.toF = true := by
  refine ⟨by decide!, by decide!, by decide!, by decide!, by decide!, by decide!, by decide!,
    by decide!, by decide!, by decide!, by decide!⟩

/-- C10 (face region), amended: for every cuboid with non-negative dimensions and every
sphere whose origin is, in the float order, within the computed bounds of the box on two
axes and strictly beyond the computed upper bound on the third, or whose origin has float
coordinates and is within the closed interval of the box on two axes and strictly beyond its
upper face on the third while the three half dimensions are computed without rounding
error, the closest point the float code computes is the sphere origin with that third
coordinate replaced by the computed upper bound (the float nearest to
`origin + dimension / 2`), and the float `is_colliding` is true if and only if the distance
the code computes from the gap (the rounded root of the rounded square of the rounded
difference between the sphere coordinate and the computed upper bound) is at most the
radius.  The three parts are the three axes. -/
theorem float_is_colliding_face_region (s : Sphere) (c : Cuboid) (h : nonneg_dims c) :
    (((F32.lt (F32.add (F32.fin c.origin.x) (F32.half (F32.fin c.breadth)))
            (F32.fin s.origin.x) = true ∧
          (F32.le (F32.sub (F32.fin c.origin.y) (F32.half (F32.fin c.length)))
              (F32.fin s.origin.y) = true ∧
            F32.le (F32.fin s.origin.y)
              (F32.add (F32.fin c.origin.y) (F32.half (F32.fin c.length))) = true) ∧
          (F32.le (F32.sub (F32.fin c.origin.z) (F32.half (F32.fin c.depth)))
              (F32.fin s.origin.z) = true ∧
            F32.le (F32.fin s.origin.z)
              (F32.add (F32.fin c.origin.z) (F32.half (F32.fin c.depth))) = true)) ∨
        (float_point s.origin ∧ exact_halves c ∧
          c.origin.x + c.breadth / 2 < s.origin.x ∧
          (c.origin.y - c.length / 2 ≤ s.origin.y ∧
            s.origin.y ≤ c.origin.y + c.length / 2) ∧
          (c.origin.z - c.depth / 2 ≤ s.origin.z ∧
            s.origin.z ≤ c.origin.z + c.depth / 2))) →
      F32.clamp_on_rectangle s.origin.toF c.toF
          = ⟨F32.add (F32.fin c.origin.x) (F32.half (F32.fin c.breadth)),
              F32.fin s.origin.y,
              F32.fin s.origin.z⟩ ∧
        (F32.is_colliding s.toF c.toF = true ↔
          F32.le (F32.axis_distance (F32.fin s.origin.x)
            (F32.add (F32.fin c.origin.x) (F32.half (F32.fin c.breadth))))
            (F32.fin s.radius) = true)) ∧
    (((F32.lt (F32.add (F32.fin c.origin.y) (F32.half (F32.fin c.length)))
            (F32.fin s.origin.y) = true ∧
          (F32.le (F32.sub (F32.fin c.origin.x) (F32.half (F32.fin c.breadth)))
              (F32.fin s.origin.x) = true ∧
            F32.le (F32.fin s.origin.x)
              (F32.add (F32.fin c.origin.x) (F32.half (F32.fin c.breadth))) = true) ∧
          (F32.le (F32.sub (F32.fin c.origin.z) (F32.half (F32.fin c.depth)))
              (F32.fin s.origin.z) = true ∧
            F32.le (F32.fin s.origin.z)
              (F32.add (F32.fin c.origin.z) (F32.half (F32.fin c.depth))) = true)) ∨
        (float_point s.origin ∧ exact_halves c ∧
          c.origin.y + c.length / 2 < s.origin.y ∧
          (c.origin.x - c.breadth / 2 ≤ s.origin.x ∧
            s.origin.x ≤ c.origin.x + c.breadth / 2) ∧
          (c.origin.z - c.depth / 2 ≤ s.origin.z ∧
            s.origin.z ≤ c.origin.z + c.depth / 2))) →
      F32.clamp_on_rectangle s.origin.toF c.toF
          = ⟨F32.fin s.origin.x,
              F32.add (F32.fin c.origin.y) (F32.half (F32.fin c.length)),
              F32.fin s.origin.z⟩ ∧
        (F32.is_colliding s.toF c.toF = true ↔
          F32.le (F32.axis_distance (F32.fin s.origin.y)
            (F32.add (F32.fin c.origin.y) (F32.half (F32.fin c.length))))
            (F32.fin s.radius) = true)) ∧
    (((F32.lt (F32.add (F32.fin c.origin.z) (F32.half (F32.fin c.depth)))
            (F32.fin s.origin.z) = true ∧
          (F32.le (F32.sub (F32.fin c.origin.x) (F32.half (F32.fin c.breadth)))
              (F32.fin s.origin.x) = true ∧
            F32.le (F32.fin s.origin.x)
              (F32.add (F32.fin c.origin.x) (F32.half (F32.fin c.breadth))) = true) ∧
          (F32.le (F32.sub (F32.fin c.origin.y) (F32.half (F32.fin c.length)))
              (F32.fin s.origin.y) = true ∧
            F32.le (F32.fin s.origin.y)
              (F32.add (F32.fin c.origin.y) (F32.half (F32.fin c.length))) = true)) ∨
        (float_point s.origin ∧ exact_halves c ∧
          c.origin.z + c.depth / 2 < s.origin.z ∧
          (c.origin.x - c.breadth / 2 ≤ s.origin.x ∧
            s.origin.x ≤ c.origin.x + c.breadth / 2) ∧
          (c.origin.y - c.length / 2 ≤ s.origin.y ∧
            s.origin.y ≤ c.origin.y + c.length / 2))) →
      F32.clamp_on_rectangle s.origin.toF c.toF
          = ⟨F32.fin s.origin.x,
              F32.fin s.origin.y,
              F32.add (F32.fin c.origin.z) (F32.half (F32.fin c.depth))⟩ ∧
        (F32.is_colliding s.toF c.toF = true ↔
          F32.le (F32.axis_distance (F32.fin s.origin.z)
            (F32.add (F32.fin c.origin.z) (F32.half (F32.fin c.depth))))
            (F32.fin s.radius) = true)) := by
  obtain ⟨hb, hl, hd⟩ := h
  obtain ⟨ox, -, -⟩ := F32.bounds_ordered c.origin.x c.breadth hb
  obtain ⟨oy, -, -⟩ := F32.bounds_ordered c.origin.y c.length hl
  obtain ⟨oz, -, -⟩ := F32.bounds_ordered c.origin.z c.depth hd
  refine ⟨?_, ?_, ?_⟩
  · intro hyp
    have e : F32.clamp_on_rectangle s.origin.toF c.toF
        = ⟨F32.add (F32.fin c.origin.x) (F32.half (F32.fin c.breadth)),
            F32.fin s.origin.y,
            F32.fin s.origin.z⟩ := by
      unfold F32.clamp_on_rectangle
      simp only [Vec3.toF, Cuboid.toF]
      rcases hyp with ⟨ha, hy, hz⟩ | ⟨fs, fh, ha, hy, hz⟩
      · rw [F32.clamp_on_range_above _ _ _ ox ha, F32.clamp_on_range_of_between _ _ _ hy.1 hy.2, F32.clamp_on_range_of_between _ _ _ hz.1 hz.2]
      · rw [F32.clamp_on_range_of_above _ _ _ hb fs.1 fh.1 ha, F32.clamp_on_range_of_inside _ _ _ fs.2.1 fh.2.1 hy.1 hy.2, F32.clamp_on_range_of_inside _ _ _ fs.2.2 fh.2.2 hz.1 hz.2]
    refine ⟨e, ?_⟩
    rw [F32.is_colliding_eq_le]
    show F32.le (F32.distance (F32.clamp_on_rectangle s.origin.toF c.toF) s.origin.toF)
      (F32.fin s.radius) = true ↔ _
    rw [e]
    simp only [F32.distance, F32.axis_distance, Vec3.toF]
    rw [F32.sub_self_fin, F32.sub_self_fin, F32.mul_zero_zero, F32.add_zero_mul_self, F32.add_zero_mul_self]
  · intro hyp
    have e : F32.clamp_on_rectangle s.origin.toF c.toF
        = ⟨F32.fin s.origin.x,
            F32.add (F32.fin c.origin.y) (F32.half (F32.fin c.length)),
            F32.fin s.origin.z⟩ := by
      unfold F32.clamp_on_rectangle
      simp only [Vec3.toF, Cuboid.toF]
      rcases hyp with ⟨ha, hx, hz⟩ | ⟨fs, fh, ha, hx, hz⟩
      · rw [F32.clamp_on_range_of_between _ _ _ hx.1 hx.2, F32.clamp_on_range_above _ _ _ oy ha, F32.clamp_on_range_of_between _ _ _ hz.1 hz.2]
      · rw [F32.clamp_on_range_of_inside _ _ _ fs.1 fh.1 hx.1 hx.2, F32.clamp_on_range_of_above _ _ _ hl fs.2.1 fh.2.1 ha, F32.clamp_on_range_of_inside _ _ _ fs.2.2 fh.2.2 hz.1 hz.2]
    refine ⟨e, ?_⟩
    rw [F32.is_colliding_eq_le]
    show F32.le (F32.distance (F32.clamp_on_rectangle s.origin.toF c.toF) s.origin.toF)
      (F32.fin s.radius) = true ↔ _
    rw [e]
    simp only [F32.distance, F32.axis_distance, Vec3.toF]
    rw [F32.sub_self_fin, F32.sub_self_fin, F32.mul_zero_zero, F32.zero_add_mul_self, F32.add_zero_mul_self]
  · intro hyp
    have e : F32.clamp_on_rectangle s.origin.toF c.toF
        = ⟨F32.fin s.origin.x,
            F32.fin s.origin.y,
            F32.add (F32.fin c.origin.z) (F32.half (F32.fin c.depth))⟩ := by
      unfold F32.clamp_on_rectangle
      simp only [Vec3.toF, Cuboid.toF]
      rcases hyp with ⟨ha, hx, hy⟩ | ⟨fs, fh, ha, hx, hy⟩
      · rw [F32.clamp_on_range_of_between _ _ _ hx.1 hx.2, F32.clamp_on_range_of_between _ _ _ hy.1 hy.2, F32.clamp_on_range_above _ _ _ oz ha]
      · rw [F32.clamp_on_range_of_inside _ _ _ fs.1 fh.1 hx.1 hx.2, F32.clamp_on_range_of_inside _ _ _ fs.2.1 fh.2.1 hy.1 hy.2, F32.clamp_on_range_of_above _ _ _ hd fs.2.2 fh.2.2 ha]
    refine ⟨e, ?_⟩
    rw [F32.is_colliding_eq_le]
    show F32.le (F32.distance (F32.clamp_on_rectangle s.origin.toF c.toF) s.origin.toF)
      (F32.fin s.radius) = true ↔ _
    rw [e]
    simp only [F32.distance, F32.axis_distance, Vec3.toF]
    rw [F32.sub_self_fin, F32.sub_self_fin, F32.mul_zero_zero, F32.add_zero_zero, F32.zero_add_mul_self]

theorem float_is_colliding_face_region_witness :
    nonneg_dims setup_cuboid ∧ exact_halves setup_cuboid ∧
    (float_point near_sphere32.origin ∧
      F32.clamp_on_rectangle near_sphere32.origin.toF setup_cuboid.toF
        = Vec3.toF ⟨1 / 2, 0, 0⟩ ∧
      F32.axis_distance (F32.fin 1) (F32.fin (1 / 2)) = F32.fin (1 / 2) ∧
      F32.is_colliding near_sphere32.toF setup_cuboid.toF = false) ∧
    (float_point touching_sphere.origin ∧
      F32.clamp_on_rectangle touching_sphere.origin.toF setup_cuboid.toF
        = Vec3.toF ⟨1 / 2, 0, 0⟩ ∧
      F32.is_colliding touching_sphere.toF setup_cuboid.toF = true) ∧
    (F32.clamp_on_rectangle far_sphere.origin.toF setup_cuboid.toF
        = Vec3.toF ⟨0, 0, 1 / 4⟩ ∧
      F32.axis_distance (F32.fin 10) (F32.fin (1 / 4)) = F32.fin (39 / 4) ∧
      F32.is_colliding far_sphere.toF setup_cuboid.toF = false) := by
  have h : nonneg_dims setup_cuboid := by decide!
  have n := (float_is_colliding_face_region near_sphere32 setup_cuboid h).1
    (Or.inr ⟨by decide!, by decide!, by decide!, by decide!, by decide!⟩)
  have t := (float_is_colliding_face_region touching_sphere setup_cuboid h).1
    (Or.inr ⟨by decide!, by decide!, by decide!, by decide!, by decide!⟩)
  have f := (float_is_colliding_face_region far_sphere setup_cuboid h).2.2
    (Or.inl ⟨by decide!, by decide!, by decide!⟩)
  refine ⟨h, by decide!, ⟨by decide!, ?_, by decide!, ?_⟩, ⟨by decide!, ?_, ?_⟩,
    ⟨?_, by decide!, ?_⟩⟩
  · rw [n.1]; decide!
  · rw [← Bool.not_eq_true, n.2]; decide!
  · rw [t.1]; decide!
  · rw [t.2]; decide!
  · rw [f.1]; decide!
  · rw [← Bool.not_eq_true, f.2]; decide!

/-! ## C13: the key steps, on the float code -/

/-- C13, as stated, fails on the float code: at z = 2^24 (a float) a W press leaves
`sphere.origin.z` unchanged, because 2^24 - 0.25 rounds to 2^24; and from z = 0.1f a W
press followed by an S press gives 3355443 / 2^25 and not 0.1f = 13421773 / 2^27. -/
theorem float_key_callback_not_exact_step :
    F32.round32 16777216 = F32.fin 16777216 ∧
    (F32.key_callback glfw_codes (state_at 16777216) 87 1).sphere.origin.z
      = F32.fin 16777216 ∧
    F32.round32 (13421773 / 134217728) = F32.fin (13421773 / 134217728) ∧
    (F32.key_callback glfw_codes (F32.key_callback glfw_codes
      (state_at (13421773 / 134217728)) 87 1) 83 1).sphere.origin.z
      = F32.fin (3355443 / 33554432) ∧
    (F32.key_callback glfw_codes (F32.key_callback glfw_codes
      (state_at (13421773 / 134217728)) 87 1) 83 1).sphere
      ≠ (state_at (13421773 / 134217728)).sphere := by
  refine ⟨by decide!, by decide!, by decide!, by decide!, by decide!⟩

theorem F32.key_callback_w (k : KeyCodes) (hk : k.GLFW_KEY_W ≠ k.GLFW_KEY_S) (st : FState) :
    F32.key_callback k st k.GLFW_KEY_W k.GLFW_PRESS
      = F32.set_z st (F32.sub st.sphere.origin.z (F32.fin (1 / 4))) := by
  unfold F32.key_callback
  simp only [true_and, and_self, false_and, if_true, if_false, hk]

theorem F32.key_callback_s (k : KeyCodes) (hk : k.GLFW_KEY_W ≠ k.GLFW_KEY_S) (st : FState) :
    F32.key_callback k st k.GLFW_KEY_S k.GLFW_PRESS
      = F32.set_z st (F32.add st.sphere.origin.z (F32.fin (1 / 4))) := by
  unfold F32.key_callback
  simp only [true_and, and_self, false_and, if_true, if_false, hk.symm]

theorem F32.key_callback_other (k : KeyCodes) (st : FState) (key action : Int)
    (h1 : ¬ (key = k.GLFW_KEY_W ∧ action = k.GLFW_PRESS))
    (h2 : ¬ (key = k.GLFW_KEY_S ∧ action = k.GLFW_PRESS)) :
    F32.key_callback k st key action = st := by
  unfold F32.key_callback
  simp only [if_neg h1, if_neg h2]

theorem F32.key_callback_frame (k : KeyCodes) (st : FState) (key action : Int) :
    (F32.key_callback k st key action).sphere.origin.x = st.sphere.origin.x ∧
    (F32.key_callback k st key action).sphere.origin.y = st.sphere.origin.y ∧
    (F32.key_callback k st key action).sphere.radius = st.sphere.radius ∧
    (F32.key_callback k st key action).cuboid = st.cuboid := by
  unfold F32.key_callback
  split_ifs <;> exact ⟨rfl, rfl, rfl, rfl⟩

/-- C13 (key steps), amended: for every state, `key_callback` with key W and action PRESS
sets `sphere.origin.z` to the float difference `z - 0.25f` (the float nearest to z - 0.25),
with key S and action PRESS to the float sum `z + 0.25f`, and with any other key or any
other action leaves it unchanged; in every case `sphere.origin.x`, `sphere.origin.y`,
`sphere.radius` and the cuboid are unchanged.  When z is a finite float and z - 0.25 is a
float too, a W press decreases z by exactly 0.25 and a following S press restores the
sphere.  The key codes W and S of the GLFW header are taken to be different. -/
theorem float_key_callback_moves_z (k : KeyCodes) (hk : k.GLFW_KEY_W ≠ k.GLFW_KEY_S)
    (st : FState) (key action : Int) :
    (key = k.GLFW_KEY_W ∧ action = k.GLFW_PRESS →
      (F32.key_callback k st key action).sphere.origin.z
        = F32.sub st.sphere.origin.z (F32.fin (1 / 4))) ∧
    (key = k.GLFW_KEY_S ∧ action = k.GLFW_PRESS →
      (F32.key_callback k st key action).sphere.origin.z
        = F32.add st.sphere.origin.z (F32.fin (1 / 4))) ∧
    ((key ≠ k.GLFW_KEY_W ∧ key ≠ k.GLFW_KEY_S) ∨ action ≠ k.GLFW_PRESS →
      (F32.key_callback k st key action).sphere.origin.z = st.sphere.origin.z) ∧
    ((F32.key_callback k st key action).sphere.origin.x = st.sphere.origin.x ∧
      (F32.key_callback k st key action).sphere.origin.y = st.sphere.origin.y ∧
      (F32.key_callback k st key action).sphere.radius = st.sphere.radius ∧
      (F32.key_callback k st key action).cuboid = st.cuboid) ∧
    (∀ q : ℚ, st.sphere.origin.z = F32.fin q → F32.round32 q = F32.fin q →
      F32.round32 (q - 1 / 4) = F32.fin (q - 1 / 4) →
      (F32.key_callback k st k.GLFW_KEY_W k.GLFW_PRESS).sphere.origin.z
          = F32.fin (q - 1 / 4) ∧
        (F32.key_callback k (F32.key_callback k st k.GLFW_KEY_W k.GLFW_PRESS)
          k.GLFW_KEY_S k.GLFW_PRESS).sphere = st.sphere) := by
  refine ⟨?_, ?_, ?_, F32.key_callback_frame k st key action, ?_⟩
  · rintro ⟨rfl, rfl⟩
    rw [F32.key_callback_w k hk]
    rfl
  · rintro ⟨rfl, rfl⟩
    rw [F32.key_callback_s k hk]
    rfl
  · intro h
    rw [F32.key_callback_other k st key action]
    · rintro ⟨h1, h2⟩
      rcases h with h | h
      · exact h.1 h1
      · exact h h2
    · rintro ⟨h1, h2⟩
      rcases h with h | h
      · exact h.2 h1
      · exact h h2
  · intro q hz hq hstep
    have e1 : F32.sub st.sphere.origin.z (F32.fin (1 / 4)) = F32.fin (q - 1 / 4) := by
      rw [hz]
      exact hstep
    have e2 : F32.add (F32.fin (q - 1 / 4)) (F32.fin (1 / 4)) = F32.fin q := by
      show F32.round32 (q - 1 / 4 + 1 / 4) = F32.fin q
      rw [sub_add_cancel]
      exact hq
    rw [F32.key_callback_w k hk, F32.key_callback_s k hk]
    refine ⟨e1, ?_⟩
    show (⟨⟨st.sphere.origin.x, st.sphere.origin.y,
        F32.add (F32.sub st.sphere.origin.z (F32.fin (1 / 4))) (F32.fin (1 / 4))⟩,
      st.sphere.radius⟩ : FSphere) = st.sphere
    rw [e1, e2, ← hz]

theorem float_key_callback_moves_z_witness :
    glfw_codes.GLFW_KEY_W ≠ glfw_codes.GLFW_KEY_S ∧
    (F32.key_callback glfw_codes (state_at 0) 87 1).sphere.origin.z = F32.fin (-1 / 4) ∧
    (F32.key_callback glfw_codes (state_at 0) 83 1).sphere.origin.z = F32.fin (1 / 4) ∧
    (F32.key_callback glfw_codes (state_at 0) 87 0).sphere.origin.z = F32.fin 0 ∧
    (F32.key_callback glfw_codes (F32.key_callback glfw_codes (state_at 0) 87 1)
      83 1).sphere = (state_at 0).sphere := by
  have hk : glfw_codes.GLFW_KEY_W ≠ glfw_codes.GLFW_KEY_S := by decide
  have h := float_key_callback_moves_z glfw_codes hk (state_at 0)
  refine ⟨hk, ?_, ?_, ?_, ?_⟩
  · rw [(h 87 1).1 ⟨rfl, rfl⟩]; decide!
  · rw [(h 83 1).2.1 ⟨rfl, rfl⟩]; decide!
  · rw [(h 87 0).2.2.1 (Or.inr (by decide))]; rfl
  · exact ((h 87 1).2.2.2.2 0 rfl (by decide!) (by decide!)).2

/-! ## C15: translation, on the float code -/

/-- C15, as stated, fails on the float code: for the box of `setup ()` with breadth
1 + 2^-23 and the sphere with centre (0.75, 0, 0) and radius 0.25 - 2^-24 the code returns
true; after moving both by (1, 0, 0) the upper bound 1.5 + 2^-24 of the x axis rounds to
1.5, the closest point is (1.5, 0, 0) and not the moved closest point (1.5 + 2^-24, 0, 0),
and the code returns false. -/
theorem float_translation_changes_verdict :
    (translate_sphere quarter_sphere ⟨1, 0, 0⟩).origin = ⟨7 / 4, 0, 0⟩ ∧
    (translate odd_cuboid ⟨1, 0, 0⟩).origin = ⟨1, 0, 0⟩ ∧
    F32.clamp_on_rectangle quarter_sphere.origin.toF odd_cuboid.toF
      = Vec3.toF ⟨8388609 / 16777216, 0, 0⟩ ∧
    F32.clamp_on_rectangle (add quarter_sphere.origin ⟨1, 0, 0⟩).toF
        (translate odd_cuboid ⟨1, 0, 0⟩).toF
      = Vec3.toF ⟨3 / 2, 0, 0⟩ ∧
    add ⟨8388609 / 16777216, 0, 0⟩ ⟨1, 0, 0⟩ ≠ (⟨3 / 2, 0, 0⟩ : Vec3) ∧
    F32.is_colliding quarter_sphere.toF odd_cuboid.toF = true ∧
    F32.is_colliding (translate_sphere quarter_sphere ⟨1, 0, 0⟩).toF
      (translate odd_cuboid ⟨1, 0, 0⟩).toF = false := by
  refine ⟨by decide!, by decide!, by decide!, by decide!, by decide!, by decide!, by decide!⟩

/-- C15 (translation invariance), amended: for every vector `t`, point `p`, sphere `s` and
cuboid `c` such that the code computes the six bounds of the cuboid and of the moved cuboid
without rounding error, moving the query point and the cuboid origin by `t` moves the
closest point the float code computes by `t`; and when the code also computes the distance
for the sphere and for the moved sphere without rounding error, moving the sphere origin
and the cuboid origin by `t` leaves the float `is_colliding` unchanged. -/
theorem float_translation_invariance_of_exact (t p : Vec3) (s : Sphere) (c : Cuboid)
    (hb : exact_bounds c) (hbt : exact_bounds (translate c t)) :
    F32.clamp_on_rectangle (add p t).toF (translate c t).toF
      = (add (clamp_on_rectangle p c) t).toF ∧
    (exact_distance s c → exact_distance (translate_sphere s t) (translate c t) →
      F32.is_colliding (translate_sphere s t).toF (translate c t).toF
        = F32.is_colliding s.toF c.toF) := by
  constructor
  · rw [F32.clamp_on_rectangle_of_exact_bounds _ _ hbt, clamp_on_rectangle_translate]
  · intro hd hdt
    rw [F32.is_colliding_of_exact _ _ hbt hdt, F32.is_colliding_of_exact _ _ hb hd]
    exact (exact_translation_invariance t p s c).2

theorem float_translation_invariance_of_exact_witness :
    exact_bounds setup_cuboid ∧ exact_bounds (translate setup_cuboid ⟨1, 0, 0⟩) ∧
    exact_distance touching_sphere setup_cuboid ∧
    exact_distance (translate_sphere touching_sphere ⟨1, 0, 0⟩)
      (translate setup_cuboid ⟨1, 0, 0⟩) ∧
    F32.clamp_on_rectangle (add ⟨2, 0, 0⟩ ⟨1, 0, 0⟩).toF
        (translate setup_cuboid ⟨1, 0, 0⟩).toF
      = (add (clamp_on_rectangle ⟨2, 0, 0⟩ setup_cuboid) ⟨1, 0, 0⟩).toF ∧
    F32.is_colliding (translate_sphere touching_sphere ⟨1, 0, 0⟩).toF
        (translate setup_cuboid ⟨1, 0, 0⟩).toF
      = F32.is_colliding touching_sphere.toF setup_cuboid.toF := by
  have hb : exact_bounds setup_cuboid := by decide!
  have hbt : exact_bounds (translate setup_cuboid ⟨1, 0, 0⟩) := by decide!
  have hd : exact_distance touching_sphere setup_cuboid :=
    ⟨1 / 2, by norm_num, by decide!, by decide!⟩
  have hdt : exact_distance (translate_sphere touching_sphere ⟨1, 0, 0⟩)
      (translate setup_cuboid ⟨1, 0, 0⟩) :=
    ⟨1 / 2, by norm_num, by decide!, by decide!⟩
  have h := float_translation_invariance_of_exact ⟨1, 0, 0⟩ ⟨2, 0, 0⟩ touching_sphere
    setup_cuboid hb hbt
  exact ⟨hb, hbt, hd, hdt, h.1, h.2 hd hdt⟩

end SphereAABB
